import Mathlib

/-!
# Split-brain arbitration of replication-manager

A shallow embedding of `src/server.go` (the monitor-side detector `fHeartbeat`
and the ticker loop of `monitorCmd`) and of `src/arbitrator.go` (the witness
handlers `handlerArbitrator`, `handlerHeartbeat` and `handlerForget`, and the
route table `rs`), followed by theorems about them.

Conventions of the embedding

* Package-level variables (`runStatus`, `splitBrain`, `conf`, `clusters`, ...)
  are fields of an explicit `State`; a function of the program is a function
  on `State`.
* Everything the program obtains from outside during one tick (answers of the
  peers and of the witness, the iteration order Go picks for `range clusters`)
  is read from a `World`.
* Calls that leave the file (HTTP requests, `cl.SetActiveStatus`,
  `cl.SetMasterReadOnly`, `time.Sleep`, the `dbhelper` store operations) are
  appended to a trace in program order, so that "is invoked" and "is not
  invoked" are statements about that trace.
* `LogPrintf` / `log.*` calls only print; they are left out, and so is
  `cl.LostMajority()`, whose result is used for printing only.
* A runtime panic of the monitor sets `State.panicked`; a `panic(err)` of a
  handler is `Except.error`.
* JSON decoding (`json.Unmarshal`) is a parameter: the theorems hold for every
  decoder.
-/

namespace ReplicationManager

/-! ## Data model -/

/-- Modelled from the spec: the wire type `heartbeat` is declared in a file that
is not under src; its fields are the ones the two source files read
(`h.UUID`, `h.Secret`, `h.Cluster`, `h.Master`, `h.UID`, `h.Hosts`, `h.Failed`,
`h.Status`) and the Arbitration Message table of the spec. -/
structure heartbeat where
  UUID : String
  Secret : String
  Cluster : String
  Master : String
  UID : Int
  Hosts : Int
  Failed : Int
  Status : String
deriving DecidableEq, Repr

/-- The Go zero value of `heartbeat` (`var h heartbeat`). -/
def heartbeat.zero : heartbeat :=
  { UUID := "", Secret := "", Cluster := "", Master := "", UID := 0, Hosts := 0,
    Failed := 0, Status := "" }

/-- The fields of `conf` that `fHeartbeat` and the ticker loop read or write. -/
structure Config where
  Arbitration : Bool
  ArbitrationPeerHosts : String
  ArbitrationSasHosts : String
  ArbitrationSasSecret : String
  ArbitrationSasUniqueId : Int
deriving DecidableEq, Repr

/-- What `fHeartbeat` reads from a `*cluster.Cluster`: `GetName()`,
`GetMaster()` (`none` for nil, else the master's `URL`), `len(GetServers())`
and `CountFailed(GetServers())`. -/
structure Cluster where
  name : String
  master : Option String
  servers : Nat
  failed : Int
deriving DecidableEq, Repr

/-- Calls of `fHeartbeat` that leave the file, in program order. -/
inductive Event where
  | httpGet (url : String)
  | httpPost (url : String) (body : String)
  | SetActiveStatus (cluster : String) (status : String)
  | SetMasterReadOnly (cluster : String)
  | Sleep (seconds : Nat)
deriving DecidableEq, Repr

/-- The package-level variables of `server.go` used by the detector, plus the
trace of outgoing calls and a flag telling that the process died of a runtime
panic. -/
structure State where
  cfgGroup : String
  conf : Config
  runUUID : String
  runStatus : String
  splitBrain : Bool
  clusters : List Cluster
  trace : List Event
  panicked : Bool
deriving DecidableEq, Repr

/-- Outcome of one peer probe (lines 503-527): `http.NewRequest` failed,
`client.Do` failed, or a body was read and `json.Unmarshal` gave `some h`
(no error) or `none` (error). -/
inductive PeerOutcome where
  | newRequestError
  | doError
  | response (h : Option heartbeat)
deriving DecidableEq, Repr

/-- The local type `response` of `fHeartbeat` (lines 609-612). -/
structure fHeartbeat.response where
  Arbitration : String
  Master : String
deriving DecidableEq, Repr

/-- Outcome of the POST to the witness's `/arbitrator` (lines 597-622):
`client.Do` failed, the body did not unmarshal, or it unmarshalled to `r`. -/
inductive ArbitratorOutcome where
  | doError
  | invalidJSON
  | parsed (r : fHeartbeat.response)
deriving DecidableEq, Repr

/-- Everything one tick obtains from outside. `peer i` is the outcome of the
`i`-th peer probe of the tick, `heartbeat i` tells whether the `i`-th POST to
the witness's `/heartbeat` got a response, `arbitrator` is the outcome of the
POST to `/arbitrator`; `rangeReport` and `rangeArbitration` are the orders in
which the two `for _, cl := range clusters` loops visit the map;
`newRequest url` tells whether `http.NewRequest("POST", url, ...)` returns a
request for that URL (it returns nil and an error for a URL it cannot parse). -/
structure World where
  peer : Nat → PeerOutcome
  newRequest : String → Bool
  rangeReport : List Cluster → List Cluster
  heartbeat : Nat → Bool
  rangeArbitration : List Cluster → List Cluster
  arbitrator : ArbitratorOutcome

/-- A `World` is admissible when both `range` loops visit every cluster once. -/
def World.RangesArePerms (w : World) : Prop :=
  ∀ l, (w.rangeReport l).Perm l ∧ (w.rangeArbitration l).Perm l

/-! ## Library functions used by the source -/

/-- Pieces of a character list between occurrences of `sep`; `acc` holds the
current piece reversed. -/
def strings.splitAux (sep : Char) : List Char → List Char → List (List Char)
  | acc, [] => [acc.reverse]
  | acc, c :: cs =>
    if c = sep then acc.reverse :: strings.splitAux sep [] cs
    else strings.splitAux sep (c :: acc) cs

/-- Go `strings.Split(s, ",")`: the substrings between commas, one more than
there are commas. -/
def strings.Split (s : String) : List String :=
  (strings.splitAux ',' [] s.data).map String.mk

/-- Go `strconv.Itoa`. -/
def strconv.Itoa (n : Int) : String := toString n

/-! ## server.go : fHeartbeat -/

/-- The request body built at lines 555-559 and again at lines 587-591. -/
def jsonStr (st : State) (cl : Cluster) : String :=
  let mst : String := match cl.master with
    | some url => url
    | none => ""
  "\x7b\"uuid\":\"" ++ st.runUUID ++ "\",\"secret\":\"" ++ st.conf.ArbitrationSasSecret ++
    "\",\"cluster\":\"" ++ cl.name ++ "\",\"master\":\"" ++ mst ++ "\",\"id\":" ++
    strconv.Itoa st.conf.ArbitrationSasUniqueId ++ ",\"status\":\"" ++ st.runStatus ++
    "\",\"hosts\":" ++ strconv.Itoa (cl.servers : Int) ++ ",\"failed\":" ++
    strconv.Itoa cl.failed ++ "\x7d"

/-- Append one outgoing call to the trace. -/
def State.emit (st : State) (e : Event) : State :=
  { st with trace := st.trace ++ [e] }

/-- One iteration of the peer loop (lines 493-541). -/
def probeStep (peer : String) (o : PeerOutcome) (st : State) : State :=
  let url := "http://" ++ peer ++ "/heartbeat"
  match o with
  | .newRequestError => st
  | .doError => st.emit (.httpGet url)
  | .response none => st.emit (.httpGet url)
  | .response (some h) =>
    let st := { st.emit (.httpGet url) with splitBrain := false }
    if h.Status = "S" then { st with runStatus := "A" }
    else { st with runStatus := "S" }

/-- The peer loop `for _, peer := range peerList` (lines 493-541). -/
def probeLoop : List String → (Nat → PeerOutcome) → State → State
  | [], _, st => st
  | peer :: rest, o, st => probeLoop rest (fun i => o (i + 1)) (probeStep peer (o 0) st)

/-- Probe phase (lines 491-541): `splitBrain = true`, then the peer loop. -/
def probePhase (w : World) (peerList : List String) (st : State) : State :=
  probeLoop peerList w.peer { st with splitBrain := true }

/-- Result of a loop whose body may `return` from `fHeartbeat`. -/
inductive Control where
  | fallThrough (st : State)
  | returned (st : State)
deriving DecidableEq, Repr

/-- The loop that reports to the witness's `/heartbeat` (lines 548-575). The
error of `http.NewRequest` is not checked (line 560), so when no request was
built `req.Header.Set` (line 561) dereferences nil and the process panics. -/
def reportLoop (newRequest : String → Bool) : List Cluster → (Nat → Bool) → State → Control
  | [], _, st => .fallThrough st
  | cl :: rest, ok, st =>
    let url := "http://" ++ st.conf.ArbitrationSasHosts ++ "/heartbeat"
    if newRequest url then
      let st := st.emit (.httpPost url (jsonStr st cl))
      if ok 0 then reportLoop newRequest rest (fun i => ok (i + 1)) st
      else .returned { st.emit (.SetActiveStatus cl.name "S") with runStatus := "S" }
    else .returned { st with panicked := true }

/-- The loop that requests arbitration (lines 581-644); every path through its
body returns, so only the first cluster of the range is visited. As in the
report loop, `req.Header.Set` (line 593) panics when no request was built. -/
def arbitrationLoop (newRequest : String → Bool) (bcksplitbrain : Bool) :
    List Cluster → ArbitratorOutcome → State → State
  | [], _, st => st
  | cl :: _, o, st =>
    let url := "http://" ++ st.conf.ArbitrationSasHosts ++ "/arbitrator"
    let mst : String := match cl.master with
      | some u => u
      | none => ""
    if newRequest url then
      let st := st.emit (.httpPost url (jsonStr st cl))
      match o with
      | .doError =>
        { (st.emit (.SetActiveStatus cl.name "S")).emit (.SetMasterReadOnly cl.name) with
          runStatus := "S" }
      | .invalidJSON =>
        { (st.emit (.SetActiveStatus cl.name "S")).emit (.SetMasterReadOnly cl.name) with
          runStatus := "S" }
      | .parsed r =>
        if r.Arbitration = "winner" then
          { st.emit (.SetActiveStatus cl.name "A") with runStatus := "A" }
        else
          let st :=
            if bcksplitbrain != st.splitBrain then
              let mst := match cl.master with
                | some u => u
                | none => mst
              if r.Master ≠ mst then st.emit (.SetMasterReadOnly cl.name) else st
            else st
          { st.emit (.SetActiveStatus cl.name "S") with runStatus := "S" }
    else { st with panicked := true }

/-- Escalation phase, the body of `if splitBrain` (lines 542-646). -/
def escalationPhase (w : World) (bcksplitbrain : Bool) (st : State) : State :=
  match reportLoop w.newRequest (w.rangeReport st.clusters) w.heartbeat st with
  | .returned st => st
  | .fallThrough st =>
    let st := if bcksplitbrain != st.splitBrain then st.emit (.Sleep 5) else st
    arbitrationLoop w.newRequest bcksplitbrain (w.rangeArbitration st.clusters) w.arbitrator st

/-- The function `fHeartbeat` (lines 475-647). -/
def fHeartbeat (w : World) (st : State) : State :=
  if st.cfgGroup = "arbitrator" then st
  else
    let bcksplitbrain := st.splitBrain
    if st.conf.ArbitrationPeerHosts ≠ "" then
      let peerList := strings.Split st.conf.ArbitrationPeerHosts
      let st := probePhase w peerList st
      if st.splitBrain then escalationPhase w bcksplitbrain st else st
    else { st with conf := { st.conf with Arbitration := false } }

/-- One firing of the ticker in `monitorCmd` (lines 436-439); a process that
panicked is gone and ticks no more. -/
def tick (w : World) (st : State) : State :=
  if st.panicked then st
  else if st.conf.Arbitration then fHeartbeat w st else st

/-- The package `init` of `server.go` (lines 59-63): `runStatus = "A"`,
`splitBrain = false`; the other variables are handed in. -/
def init (cfgGroup : String) (conf : Config) (runUUID : String) (clusters : List Cluster) :
    State :=
  { cfgGroup := cfgGroup, conf := conf, runUUID := runUUID, runStatus := "A",
    splitBrain := false, clusters := clusters, trace := [], panicked := false }

/-- The start of `monitorCmd` (lines 353-355): with arbitration enabled the
instance starts Standby. -/
def monitorCmd.start (st : State) : State :=
  if st.conf.Arbitration = true then { st with runStatus := "S" } else st

/-! ## arbitrator.go : handlerArbitrator -/

/-- The type `response` of `arbitrator.go` (lines 71-74); `ElectedMaster` is the
JSON field `master`. -/
structure response where
  Arbitration : String
  ElectedMaster : String
deriving DecidableEq, Repr

/-- One value written by `json.NewEncoder(w).Encode`: an error, a `response`,
or a Go string. -/
inductive Encoded where
  | error (err : String)
  | response (send : response)
  | string (send : String)
deriving DecidableEq, Repr

/-- The observable part of a `http.ResponseWriter`: the Content-Type and status
code that went out with the header, and the values encoded into the body. -/
structure ResponseWriter where
  contentType : Option String
  status : Option Nat
  body : List Encoded
deriving DecidableEq, Repr

/-- A fresh `http.ResponseWriter`: nothing sent yet. -/
def ResponseWriter.new : ResponseWriter :=
  { contentType := none, status := none, body := [] }

/-- Go `w.Header().Set("Content-Type", v)`: it reaches the client only while the header
has not been sent. -/
def ResponseWriter.SetContentType (w : ResponseWriter) (v : String) : ResponseWriter :=
  match w.status with
  | none => { w with contentType := some v }
  | some _ => w

/-- Go `w.WriteHeader(code)`: sends the header once; a later call is ignored. -/
def ResponseWriter.WriteHeader (w : ResponseWriter) (code : Nat) : ResponseWriter :=
  match w.status with
  | none => { w with status := some code }
  | some _ => w

/-- Go `json.NewEncoder(w).Encode(v)`: the first write sends the header with status 200
if none was sent, then the encoded value is appended to the body. -/
def ResponseWriter.Encode (w : ResponseWriter) (v : Encoded) : ResponseWriter :=
  { (w.WriteHeader 200) with body := w.body ++ [v] }

/-- Outcome of `json.Unmarshal(body, &h)`: no error and the decoded message, or
an error together with what `h` holds afterwards (the zero value, or the
fields decoded before the error). -/
inductive Unmarshalled where
  | ok (h : heartbeat)
  | error (err : String) (h : heartbeat)
deriving DecidableEq, Repr

/-- The calls a handler makes into the `dbhelper` store, in program order. -/
inductive Call where
  | RequestArbitration (uuid secret cluster master : String) (uid hosts failed : Int)
  | GetArbitrationMaster (secret cluster : String)
  | WriteHeartbeat (uuid secret cluster master : String) (uid hosts failed : Int)
  | ForgetArbitration (secret : String)
deriving DecidableEq, Repr

/-- The four `dbhelper` operations the handlers call, over a store of type `σ`.
The package is not under src, so the handlers take it as a parameter.
An `Option String` result is a Go `error` (`none` for nil). -/
structure dbhelper (σ : Type) where
  RequestArbitration : σ → String → String → String → String → Int → Int → Int → Bool × σ
  GetArbitrationMaster : σ → String → String → String
  WriteHeartbeat : σ → String → String → String → String → Int → Int → Int → Option String × σ
  ForgetArbitration : σ → String → Option String × σ

/-- An incoming request as the handlers see it: the bytes of `r.Body` and the
errors, if any, of reading and of closing it. -/
structure Request where
  Body : List UInt8
  ReadAllErr : Option String
  CloseErr : Option String

/-- What serving one request leaves behind: the response, the store and the
store calls made. -/
structure Served (σ : Type) where
  w : ResponseWriter
  db : σ
  calls : List Call

/-- Lines 126-145 of `handlerArbitrator`: the decision, the lookup and the
verdict written to `w`. -/
def handlerArbitrator.verdict {σ : Type} (db : dbhelper σ) (h : heartbeat) (w : ResponseWriter)
    (s : σ) : Served σ :=
  let res := db.RequestArbitration s h.UUID h.Secret h.Cluster h.Master h.UID h.Hosts h.Failed
  let electedmaster := db.GetArbitrationMaster res.2 h.Secret h.Cluster
  let send : response :=
    if res.1 then { Arbitration := "winner", ElectedMaster := electedmaster }
    else { Arbitration := "looser", ElectedMaster := electedmaster }
  let w := w.SetContentType "application/json; charset=UTF-8"
  let w := w.WriteHeader 201
  { w := w.Encode (.response send),
    db := res.2,
    calls := [.RequestArbitration h.UUID h.Secret h.Cluster h.Master h.UID h.Hosts h.Failed,
              .GetArbitrationMaster h.Secret h.Cluster] }

/-- The function `handlerArbitrator` (lines 109-146). A `panic` is `Except.error`.
The branch for a decode error (lines 119-125) writes 422 and the error and
does not return, so control reaches line 126 with whatever `h` holds.
The store `s` is what the connection of `MemDBConnect` (whose error the handler
drops) gives access to; a failing write to `w` is not modelled. -/
def handlerArbitrator {σ : Type} (db : dbhelper σ) (Unmarshal : List UInt8 → Unmarshalled)
    (r : Request) (s : σ) : Except String (Served σ) :=
  match r.ReadAllErr with
  | some err => .error err
  | none =>
    match r.CloseErr with
    | some err => .error err
    | none =>
      let body := r.Body.take 1048576
      match Unmarshal body with
      | .error err h =>
        let w := ResponseWriter.new.SetContentType "application/json; charset=UTF-8"
        let w := w.WriteHeader 422
        let w := w.Encode (.error err)
        .ok (handlerArbitrator.verdict db h w s)
      | .ok h => .ok (handlerArbitrator.verdict db h ResponseWriter.new s)

/-! ## The store, from the spec -/

/-- Modelled from the spec: an Arbitration Claim, the row the store keeps per
`(Secret, Cluster)` key (the `dbhelper` package is not under src). It holds the
fields the handlers pass to the store; the LastSeen timestamp is left out. -/
structure Claim where
  UUID : String
  Secret : String
  Cluster : String
  Master : String
  UID : Int
  Hosts : Int
  Failed : Int
deriving DecidableEq, Repr

/-- Modelled from the spec: `alive(c) = c.Hosts - c.Failed`. -/
def Claim.alive (c : Claim) : Int := c.Hosts - c.Failed

/-- Modelled from the spec: whether a claim is stored under the key
`(secret, cluster)`. -/
def Claim.hasKey (secret cluster : String) (c : Claim) : Bool :=
  decide (c.Secret = secret) && decide (c.Cluster = cluster)

/-- Modelled from the spec: the incumbent claim of a key, if any. -/
def Store.incumbent (s : List Claim) (secret cluster : String) : Option Claim :=
  s.find? (Claim.hasKey secret cluster)

/-- Modelled from the spec: `Upsert(claim)` unconditionally writes or overwrites
the claim of its key. -/
def Store.Upsert (s : List Claim) (c : Claim) : List Claim :=
  c :: s.filter (fun d => !(Claim.hasKey c.Secret c.Cluster d))

/-- Modelled from the spec: `Decide(candidate)`. Without an incumbent the
candidate wins; else it wins iff it has more alive servers, or as many and a
smaller UID. A winner overwrites the incumbent, a loser changes nothing. -/
def Store.Decide (s : List Claim) (c : Claim) : Bool × List Claim :=
  match Store.incumbent s c.Secret c.Cluster with
  | none => (true, Store.Upsert s c)
  | some inc =>
    if c.alive > inc.alive ∨ (c.alive = inc.alive ∧ c.UID < inc.UID) then
      (true, Store.Upsert s c)
    else (false, s)

/-- Modelled from the spec: `Lookup(secret, cluster)` returns the incumbent's
Master, the empty string if there is none. -/
def Store.Lookup (s : List Claim) (secret cluster : String) : String :=
  match Store.incumbent s secret cluster with
  | some inc => inc.Master
  | none => ""

/-- Modelled from the spec: `Forget(secret)` deletes all claims with that
Secret. -/
def Store.Forget (s : List Claim) (secret : String) : List Claim :=
  s.filter (fun d => !(decide (d.Secret = secret)))

/-- Modelled from the spec: the `dbhelper` operations over a list of claims, with
a backing store that is always available (no operation returns an error). -/
def Store.dbhelper : dbhelper (List Claim) where
  RequestArbitration := fun s uuid secret cluster master uid hosts failed =>
    Store.Decide s
      { UUID := uuid, Secret := secret, Cluster := cluster, Master := master, UID := uid,
        Hosts := hosts, Failed := failed }
  GetArbitrationMaster := fun s secret cluster => Store.Lookup s secret cluster
  WriteHeartbeat := fun s uuid secret cluster master uid hosts failed =>
    (none, Store.Upsert s
      { UUID := uuid, Secret := secret, Cluster := cluster, Master := master, UID := uid,
        Hosts := hosts, Failed := failed })
  ForgetArbitration := fun s secret => (none, Store.Forget s secret)

/-! ## Vocabulary of the statements -/

/-- The outcomes of the probes of one round, in peer-list order. -/
def peerOutcomes : List String → (Nat → PeerOutcome) → List PeerOutcome
  | [], _ => []
  | _ :: rest, o => o 0 :: peerOutcomes rest (fun i => o (i + 1))

/-- The message of a probe whose response was successfully parsed. -/
def PeerOutcome.parsed? : PeerOutcome → Option heartbeat
  | .response (some h) => some h
  | _ => none

/-- The successfully parsed responses of one probe round, in peer-list order. -/
def parsedResponses (peers : List String) (o : Nat → PeerOutcome) : List heartbeat :=
  (peerOutcomes peers o).filterMap PeerOutcome.parsed?

/-- The role an instance takes on a parsed peer response (lines 532-538). -/
def roleAgainst (h : heartbeat) : String :=
  if h.Status = "S" then "A" else "S"

/-- The GET requests of one probe round: one per peer whose request could be
built. -/
def probeEvents : List String → (Nat → PeerOutcome) → List Event
  | [], _ => []
  | peer :: rest, o =>
    (match o 0 with
      | .newRequestError => []
      | _ => [Event.httpGet ("http://" ++ peer ++ "/heartbeat")]) ++
    probeEvents rest (fun i => o (i + 1))

/-- Whether every registration with the witness's `/heartbeat` got a response. -/
def allReported : List Cluster → (Nat → Bool) → Bool
  | [], _ => true
  | _ :: rest, ok => ok 0 && allReported rest (fun i => ok (i + 1))

/-- The calls of the report loop: a POST per visited cluster, up to and including
the first one that fails, which is followed by `SetActiveStatus("S")`. -/
def reportEvents (st : State) : List Cluster → (Nat → Bool) → List Event
  | [], _ => []
  | cl :: rest, ok =>
    Event.httpPost ("http://" ++ st.conf.ArbitrationSasHosts ++ "/heartbeat") (jsonStr st cl) ::
      (if ok 0 then reportEvents st rest (fun i => ok (i + 1))
       else [Event.SetActiveStatus cl.name "S"])

/-- The outgoing calls of one run of `fHeartbeat`: what it appended to the
trace. -/
def callsOf (w : World) (st : State) : List Event :=
  (fHeartbeat w st).trace.drop st.trace.length

/-- The tick reaches the probe phase: this process is not the witness and peers
are configured (lines 476-490). -/
def ReachesProbe (st : State) : Prop :=
  st.cfgGroup ≠ "arbitrator" ∧ st.conf.ArbitrationPeerHosts ≠ ""

/-- The tick enters the escalation phase: it reaches the probe phase and no
peer response is parsed. -/
def Escalates (w : World) (st : State) : Prop :=
  ReachesProbe st ∧ parsedResponses (strings.Split st.conf.ArbitrationPeerHosts) w.peer = []

/-! ## Two instances probing each other -/

/-- Two monitor instances, each the peer of the other. -/
structure System where
  a : State
  b : State

/-- Whose ticker fires, and the world of that tick apart from the peer's
answers. -/
inductive Turn where
  | a (w : World)
  | b (w : World)

/-- An atomic tick of one instance: every probe reaches the other instance, whose
status endpoint answers `reply` of its current state. -/
def System.step (reply : State → heartbeat) (s : System) : Turn → System
  | .a w => { s with a := tick { w with peer := fun _ => .response (some (reply s.b)) } s.a }
  | .b w => { s with b := tick { w with peer := fun _ => .response (some (reply s.a)) } s.b }

/-- The ticks of a schedule, one after the other. -/
def System.run (reply : State → heartbeat) : List Turn → System → System
  | [], s => s
  | t :: rest, s => System.run reply rest (s.step reply t)

/-- Exactly one of the two instances has `runStatus` Active. -/
def System.ExactlyOneActive (s : System) : Prop :=
  (s.a.runStatus = "A" ∧ s.b.runStatus ≠ "A") ∨ (s.a.runStatus ≠ "A" ∧ s.b.runStatus = "A")

/-- What the claim about two instances assumes of one of them: the process is
running, arbitration is enabled, it is not the witness, and its peer list has
exactly one entry. -/
def PeeredInstance (st : State) : Prop :=
  st.panicked = false ∧ st.conf.Arbitration = true ∧ st.cfgGroup ≠ "arbitrator" ∧
    st.conf.ArbitrationPeerHosts ≠ "" ∧
    (strings.Split st.conf.ArbitrationPeerHosts).length = 1

/-! ## Example inputs -/

/-- A configuration with arbitration enabled and the given peer list. -/
def exampleConf (peers : String) : Config :=
  { Arbitration := true, ArbitrationPeerHosts := peers,
    ArbitrationSasHosts := "10.0.0.9:8080", ArbitrationSasSecret := "s3cret",
    ArbitrationSasUniqueId := 1 }

/-- A cluster of three servers, none failed, with master `db1:3306`. -/
def exampleCluster : Cluster :=
  { name := "c1", master := some "db1:3306", servers := 3, failed := 0 }

/-- An instance at the start of a tick: Standby, managing `exampleCluster`, with
the given peer list and the given value of `splitBrain`. -/
def exampleState (peers : String) (splitBrain : Bool) : State :=
  { cfgGroup := "c1", conf := exampleConf peers, runUUID := "run-1", runStatus := "S",
    splitBrain := splitBrain, clusters := [exampleCluster], trace := [], panicked := false }

/-- A peer message that reports the given status. -/
def exampleReply (status : String) : heartbeat :=
  { heartbeat.zero with Status := status }

/-- A world in which no peer can be reached, every registration with the witness
gets a response when `hb` holds, and the arbitration request has outcome `arb`. -/
def exampleWorld (hb : Bool) (arb : ArbitratorOutcome) : World :=
  { peer := fun _ => .doError, newRequest := fun _ => true, rangeReport := id,
    heartbeat := fun _ => hb,
    rangeArbitration := id, arbitrator := arb }

/-- A world with two peers: the first reports Standby, the second Active. -/
def exampleWorldTwoPeers : World :=
  { exampleWorld true .doError with
    peer := fun i => if i = 0 then .response (some (exampleReply "S"))
                     else .response (some (exampleReply "A")) }


/-- The URL of the witness's `/heartbeat` (line 554). -/
def heartbeatURL (st : State) : String :=
  "http://" ++ st.conf.ArbitrationSasHosts ++ "/heartbeat"

/-- The URL of the witness's `/arbitrator` (line 586). -/
def arbitratorURL (st : State) : String :=
  "http://" ++ st.conf.ArbitrationSasHosts ++ "/arbitrator"

/-- The requests to the witness can be built: `http.NewRequest` accepts both
URLs. -/
def World.BuildsRequests (w : World) (st : State) : Prop :=
  w.newRequest (heartbeatURL st) = true ∧ w.newRequest (arbitratorURL st) = true

/-- The calls of an escalating tick in which every registration gets a response,
up to the arbitration request: the probes, one POST to `/heartbeat` per cluster,
and the sleep of 5 s when split-brain was not set before the tick. -/
def preludeEvents (w : World) (st : State) : List Event :=
  probeEvents (strings.Split st.conf.ArbitrationPeerHosts) w.peer ++
    (w.rangeReport st.clusters).map (fun cl => Event.httpPost (heartbeatURL st) (jsonStr st cl)) ++
    (if st.splitBrain then [] else [Event.Sleep 5])

/-- The master address `fHeartbeat` sends for a cluster: the URL of its master,
empty when it has none (lines 587-590). -/
def Cluster.mst (cl : Cluster) : String :=
  match cl.master with
  | some url => url
  | none => ""


/-- A request whose body was read and closed without error. -/
def exampleRequest : Request :=
  { Body := [110, 111, 116, 32, 106, 115, 111, 110], ReadAllErr := none, CloseErr := none }

/-- The message of a candidate with five servers, one failed. -/
def exampleMessage : heartbeat :=
  { UUID := "run-1", Secret := "s3cret", Cluster := "c1", Master := "db1:3306", UID := 20,
    Hosts := 5, Failed := 1, Status := "S" }

/-- A store holding an incumbent with five servers, two failed, for the key of
`exampleMessage`. -/
def exampleStore : List Claim :=
  [{ UUID := "run-2", Secret := "s3cret", Cluster := "c1", Master := "a:3306", UID := 10,
     Hosts := 5, Failed := 2 }]


/-- A status endpoint that reports the run id and the current `runStatus`. -/
def exampleStatusEndpoint (st : State) : heartbeat :=
  { heartbeat.zero with UUID := st.runUUID, Status := st.runStatus }

/-- Two instances as `monitorCmd` starts them, each with the other as its only
peer. -/
def exampleSystem : System :=
  { a := monitorCmd.start (init "c1" (exampleConf "10.0.0.2:10001") "run-1" [exampleCluster]),
    b := monitorCmd.start (init "c1" (exampleConf "10.0.0.1:10001") "run-2" [exampleCluster]) }


/-! ## arbitrator.go : handlerHeartbeat, handlerForget and the route table -/

/-- The function `handlerHeartbeat` (lines 147-187). A `panic` is `Except.error`.
On a decode error it writes 422 and the error and returns (line 164).
As in `handlerArbitrator`, the store `s` is what the connection of
`MemDBConnect` gives access to, and a failing write to `w` is not modelled. -/
def handlerHeartbeat {σ : Type} (db : dbhelper σ) (Unmarshal : List UInt8 → Unmarshalled)
    (r : Request) (s : σ) : Except String (Served σ) :=
  match r.ReadAllErr with
  | some err => .error err
  | none =>
    match r.CloseErr with
    | some err => .error err
    | none =>
      let body := r.Body.take 1048576
      match Unmarshal body with
      | .error err _ =>
        let w := ResponseWriter.new.SetContentType "application/json; charset=UTF-8"
        let w := w.WriteHeader 422
        let w := w.Encode (.error err)
        .ok { w := w, db := s, calls := [] }
      | .ok h =>
        let res := db.WriteHeartbeat s h.UUID h.Secret h.Cluster h.Master h.UID h.Hosts h.Failed
        let send : String :=
          match res.1 with
          | none => "\x7b\"heartbeat\":\"succed\"\x7d"
          | some _ => "\x7b\"heartbeat\":\"failed\"\x7d"
        let w := ResponseWriter.new.SetContentType "application/json; charset=UTF-8"
        .ok { w := w.Encode (.string send),
              db := res.2,
              calls := [.WriteHeartbeat h.UUID h.Secret h.Cluster h.Master h.UID h.Hosts
                h.Failed] }

/-- The function `handlerForget` (lines 189-225), built like `handlerHeartbeat`
around `dbhelper.ForgetArbitration(db, h.Secret)`. -/
def handlerForget {σ : Type} (db : dbhelper σ) (Unmarshal : List UInt8 → Unmarshalled)
    (r : Request) (s : σ) : Except String (Served σ) :=
  match r.ReadAllErr with
  | some err => .error err
  | none =>
    match r.CloseErr with
    | some err => .error err
    | none =>
      let body := r.Body.take 1048576
      match Unmarshal body with
      | .error err _ =>
        let w := ResponseWriter.new.SetContentType "application/json; charset=UTF-8"
        let w := w.WriteHeader 422
        let w := w.Encode (.error err)
        .ok { w := w, db := s, calls := [] }
      | .ok h =>
        let res := db.ForgetArbitration s h.Secret
        let send : String :=
          match res.1 with
          | none => "\x7b\"heartbeat\":\"succed\"\x7d"
          | some _ => "\x7b\"heartbeat\":\"failed\"\x7d"
        let w := ResponseWriter.new.SetContentType "application/json; charset=UTF-8"
        .ok { w := w.Encode (.string send),
              db := res.2,
              calls := [.ForgetArbitration h.Secret] }

/-- The three handlers a route can name. -/
inductive HandlerFunc where
  | handlerHeartbeat
  | handlerArbitrator
  | handlerForget
deriving DecidableEq, Repr

/-- The type `route` (lines 27-32). -/
structure route where
  Name : String
  Method : String
  Pattern : String
  HandlerFunc : HandlerFunc
deriving DecidableEq, Repr

/-- The route table `rs` (lines 50-69), as written in the source. -/
def rs : List route :=
  [ { Name := "Heartbeat", Method := "POST", Pattern := "/heartbeat",
      HandlerFunc := .handlerHeartbeat },
    { Name := "Arbitrator", Method := "POST", Pattern := "/arbitrator",
      HandlerFunc := .handlerArbitrator },
    { Name := "Forget", Method := "PST", Pattern := "/forget/",
      HandlerFunc := .handlerForget } ]

/-- The function `newRouter` (lines 36-48): the routes of `rs`, registered in
order on a router with `StrictSlash(true)`. -/
def newRouter : List route := rs

/-- A path template without its trailing slash, if it has one. -/
def mux.trimSlash (p : String) : String :=
  if p.data.getLast? = some '/' then String.mk p.data.dropLast else p

/-- The path matcher of gorilla/mux for a template without variables under
`StrictSlash(true)`: the template matches with and without the trailing slash. -/
def mux.pathMatches (template path : String) : Bool :=
  decide (path = mux.trimSlash template) || decide (path = mux.trimSlash template ++ "/")

/-- The matchers `Methods(r.Method).Path(r.Pattern)` of one route: the request
method is one of the route's methods (which mux upper-cases) and the path
matches. -/
def mux.routeMatches (r : route) (method path : String) : Bool :=
  decide (String.mk (r.Method.data.map Char.toUpper) = method) &&
    mux.pathMatches r.Pattern path

/-- What the router does with a request. -/
inductive Dispatch where
  | handler (f : HandlerFunc)
  | redirect (path : String)
  | noMatch
deriving DecidableEq, Repr

/-- The dispatch of gorilla/mux on a clean path: the first route whose matchers
all match serves the request, by its handler when the path is the template and
by a redirect to the template when only the trailing slash differs; without
such a route the request gets an error answer (404, or 405 for a method
mismatch). A path that is not clean (`//`, `.` or `..` segments) is redirected
by mux to its cleaned form before any matching; that step is not part of this
function, which is meant for clean paths only. -/
def mux.Match (router : List route) (method path : String) : Dispatch :=
  match router.find? (fun r => mux.routeMatches r method path) with
  | none => .noMatch
  | some r => if path = r.Pattern then .handler r.HandlerFunc else .redirect r.Pattern

/-- A JSON value, as far as the handlers write them. -/
inductive JSON where
  | string (s : String)
  | object (members : List (String × JSON))

/-- The JSON value `Encode` writes (encoding/json): a Go string becomes a JSON
string, a `response` an object with the members `arbitration` and `master`.
What it writes for an `error` depends on the dynamic type of the error and is
not modelled. -/
def Encoded.value : Encoded → Option JSON
  | .string send => some (.string send)
  | .response send =>
    some (.object [("arbitration", .string send.Arbitration),
      ("master", .string send.ElectedMaster)])
  | .error _ => none

/-- Whether a call is a POST to the given URL. -/
def Event.isPostTo (url : String) : Event → Bool
  | .httpPost u _ => decide (u = url)
  | _ => false

/-- A second cluster, of five servers with one failed and master `db4:3306`. -/
def exampleCluster2 : Cluster :=
  { name := "c2", master := some "db4:3306", servers := 5, failed := 1 }


/-- Modelled from the spec: the claim a message puts forward (its fields but the
Status), as the handlers pass it to the store. -/
def heartbeat.claim (h : heartbeat) : Claim :=
  { UUID := h.UUID, Secret := h.Secret, Cluster := h.Cluster, Master := h.Master, UID := h.UID,
    Hosts := h.Hosts, Failed := h.Failed }

/-- An instance that is configured as the witness itself, with arbitration
enabled. -/
def exampleWitnessState : State :=
  { exampleState "10.0.0.2:10001" false with cfgGroup := "arbitrator" }

/-- An instance that manages two clusters. -/
def exampleStateTwoClusters : State :=
  { exampleState "10.0.0.2:10001" false with clusters := [exampleCluster, exampleCluster2] }


/-- The double-quote character. -/
def quote : Char := Char.ofNat 34

/-- A string that contains no double quote. -/
@[reducible]
def QuoteFree (s : String) : Prop := quote ∉ s.data

/-- An instance whose secret contains double quotes. -/
def exampleQuotedState : State :=
  { exampleState "10.0.0.2:10001" false with
    conf := { exampleConf "10.0.0.2:10001" with ArbitrationSasSecret := "a\",\"cluster\":\"b" } }

/-- An instance with the secret `a`. -/
def examplePlainState : State :=
  { exampleState "10.0.0.2:10001" false with
    conf := { exampleConf "10.0.0.2:10001" with ArbitrationSasSecret := "a" } }

/-- A cluster named `c`. -/
def examplePlainCluster : Cluster :=
  { exampleCluster with name := "c" }

/-- A cluster whose name contains double quotes. -/
def exampleQuotedCluster : Cluster :=
  { exampleCluster with name := "b\",\"cluster\":\"c" }


/-- Whether a call is `cl.SetActiveStatus(...)`. -/
def Event.isSetActiveStatus : Event → Bool
  | .SetActiveStatus _ _ => true
  | _ => false

/-- The calls `l` contain no `SetActiveStatus`, or exactly one, and that one
gives the role `runStatus`. -/
def StatusCalls (l : List Event) (runStatus : String) : Prop :=
  l.filter Event.isSetActiveStatus = [] ∨
    ∃ cluster, l.filter Event.isSetActiveStatus = [Event.SetActiveStatus cluster runStatus]

/-- A world with one peer that answers with an empty status. -/
def exampleWorldEmptyStatus : World :=
  { exampleWorld true .doError with peer := fun _ => .response (some (exampleReply "")) }


/-- The percent sign. -/
def percent : Char := Char.ofNat 37

/-- An Active instance whose witness address `%zz:8080` has an invalid escape, so
that `http.NewRequest` cannot parse the URLs built from it. -/
def exampleBadWitnessState : State :=
  { exampleState "10.0.0.2:10001" false with
    runStatus := "A"
    conf := { exampleConf "10.0.0.2:10001" with ArbitrationSasHosts := "%zz:8080" } }

/-- A world in which no peer can be reached and `http.NewRequest` refuses the URLs
that contain a percent sign. -/
def exampleWorldBadWitness : World :=
  { exampleWorld true (.parsed ⟨"winner", "db1:3306"⟩) with
    newRequest := fun url => decide (percent ∉ url.data) }

/-- The clusters the report loop visits: those of its range up to and including
the first whose registration fails. -/
def reportedClusters : List Cluster → (Nat → Bool) → List Cluster
  | [], _ => []
  | cl :: rest, ok =>
    cl :: (if ok 0 then reportedClusters rest (fun i => ok (i + 1)) else [])


/-! ## Lemmas on the probe phase -/

theorem peerOutcomes_length (peers : List String) (o : Nat → PeerOutcome) :
    (peerOutcomes peers o).length = peers.length := by
  induction peers generalizing o with
  | nil => rfl
  | cons p rest ih => simp [peerOutcomes, ih]

theorem getLast?_cons_eq {α : Type} (x : α) (l : List α) :
    (x :: l).getLast? = some ((l.getLast?).getD x) := by
  cases l with
  | nil => rfl
  | cons y ys =>
    rw [List.getLast?_cons_cons]
    cases h : (y :: ys).getLast? with
    | none => simp at h
    | some z => rfl

/-- Closed form of the peer loop: the last parsed response, if any, clears
`splitBrain` and fixes `runStatus`; the trace grows by the GET requests. -/
theorem probeLoop_eq (peers : List String) (o : Nat → PeerOutcome) (st : State) :
    probeLoop peers o st =
      { st with
        splitBrain := match (parsedResponses peers o).getLast? with
          | none => st.splitBrain
          | some _ => false
        runStatus := match (parsedResponses peers o).getLast? with
          | none => st.runStatus
          | some h => roleAgainst h
        trace := st.trace ++ probeEvents peers o } := by
  induction peers generalizing o st with
  | nil => simp [probeLoop, parsedResponses, peerOutcomes, probeEvents]
  | cons p rest ih =>
    rw [probeLoop, ih]
    have hp : parsedResponses (p :: rest) o =
        (match (o 0).parsed? with | some h => [h] | none => []) ++
          parsedResponses rest (fun i => o (i + 1)) := by
      simp only [parsedResponses, peerOutcomes, List.filterMap_cons]
      cases (o 0).parsed? <;> rfl
    rw [hp]
    rcases ho : o 0 with _ | _ | (_ | h)
    · simp [probeStep, probeEvents, ho, PeerOutcome.parsed?]
    · simp [probeStep, probeEvents, ho, PeerOutcome.parsed?, State.emit]
    · simp [probeStep, probeEvents, ho, PeerOutcome.parsed?, State.emit]
    · simp only [probeStep, probeEvents, ho, PeerOutcome.parsed?, State.emit,
        List.singleton_append, getLast?_cons_eq]
      cases (parsedResponses rest fun i => o (i + 1)).getLast? with
      | none => by_cases hs : h.Status = "S" <;> simp [hs, roleAgainst]
      | some h2 => by_cases hs : h.Status = "S" <;> simp [hs, roleAgainst]

theorem probePhase_eq (w : World) (peers : List String) (st : State) :
    probePhase w peers st =
      { st with
        splitBrain := match (parsedResponses peers w.peer).getLast? with
          | none => true
          | some _ => false
        runStatus := match (parsedResponses peers w.peer).getLast? with
          | none => st.runStatus
          | some h => roleAgainst h
        trace := st.trace ++ probeEvents peers w.peer } := by
  rw [probePhase, probeLoop_eq]

theorem probeEvents_all_get (peers : List String) (o : Nat → PeerOutcome) :
    ∀ e ∈ probeEvents peers o, ∃ url, e = Event.httpGet url := by
  induction peers generalizing o with
  | nil => simp [probeEvents]
  | cons p rest ih =>
    intro e he
    simp only [probeEvents, List.mem_append] at he
    rcases he with he | he
    · cases ho : o 0 <;> simp [ho] at he <;> exact ⟨_, he⟩
    · exact ih _ e he

theorem parsedResponses_eq_nil_iff (peers : List String) (o : Nat → PeerOutcome) :
    parsedResponses peers o = [] ↔ ∀ i, i < peers.length → (o i).parsed? = none := by
  induction peers generalizing o with
  | nil => simp [parsedResponses, peerOutcomes]
  | cons p rest ih =>
    have hcons : parsedResponses (p :: rest) o = [] ↔
        (o 0).parsed? = none ∧ parsedResponses rest (fun i => o (i + 1)) = [] := by
      simp only [parsedResponses, peerOutcomes, List.filterMap_cons]
      cases (o 0).parsed? <;> simp
    rw [hcons, ih]
    constructor
    · rintro ⟨h0, hrest⟩ i hi
      cases i with
      | zero => exact h0
      | succ j => exact hrest j (by simp only [List.length_cons] at hi; omega)
    · intro h
      exact ⟨h 0 (by simp), fun i hi => h (i + 1) (by simp only [List.length_cons]; omega)⟩

/-- After the probe phase `splitBrain` tells that nothing parsed, and then
`runStatus` is untouched. -/
theorem probePhase_splitBrain (w : World) (peers : List String) (st : State) :
    ((probePhase w peers st).splitBrain = true ↔ parsedResponses peers w.peer = []) ∧
    ((probePhase w peers st).splitBrain = true →
      (probePhase w peers st).runStatus = st.runStatus) := by
  rw [probePhase_eq]
  cases h : (parsedResponses peers w.peer).getLast? with
  | none => simp [List.getLast?_eq_none_iff.mp h]
  | some x =>
    have hne : parsedResponses peers w.peer ≠ [] := by
      intro hnil
      simp [hnil] at h
    simp [hne]


/-- C9. After the probe phase `splitBrain` is true exactly when no configured peer
returned a response that was successfully parsed, and in that case the probe
phase has left `runStatus` at the value it had when the tick started. -/
theorem probePhase_splitBrain_iff (w : World) (peers : List String) (st : State) :
    ((probePhase w peers st).splitBrain = true ↔ parsedResponses peers w.peer = []) ∧
    ((probePhase w peers st).splitBrain = true ↔
      ∀ i, i < peers.length → (w.peer i).parsed? = none) ∧
    ((probePhase w peers st).splitBrain = true →
      (probePhase w peers st).runStatus = st.runStatus) :=
  ⟨(probePhase_splitBrain w peers st).1,
   (probePhase_splitBrain w peers st).1.trans (parsedResponses_eq_nil_iff peers w.peer),
   (probePhase_splitBrain w peers st).2⟩

/-- C4, as stated, fails: with two peers of which the first reports Standby and
the second Active, the first parsed response reports Standby, yet the role after
the probe phase is Standby, not Active. -/
theorem probePhase_first_response_not_decisive :
    strings.Split (exampleState "10.0.0.2:10001,10.0.0.3:10001" false).conf.ArbitrationPeerHosts =
        ["10.0.0.2:10001", "10.0.0.3:10001"] ∧
    (parsedResponses ["10.0.0.2:10001", "10.0.0.3:10001"] exampleWorldTwoPeers.peer).head? =
        some (exampleReply "S") ∧
    (probePhase exampleWorldTwoPeers ["10.0.0.2:10001", "10.0.0.3:10001"]
        (exampleState "10.0.0.2:10001,10.0.0.3:10001" false)).runStatus = "S" ∧
    (fHeartbeat exampleWorldTwoPeers
        (exampleState "10.0.0.2:10001,10.0.0.3:10001" false)).runStatus = "S" := by
  refine ⟨by decide, by decide, by decide, by decide⟩

/-- C4, amended. When at least one peer response parses, the role held after the
probe phase is decided by the last successfully parsed response in peer-list
order: Active if that sibling reports Standby ("S"), Standby otherwise, in
particular if it reports Active, whatever the earlier peers answered. -/
theorem probePhase_last_response_decides (w : World) (peers : List String) (st : State)
    (h : heartbeat) (hlast : (parsedResponses peers w.peer).getLast? = some h) :
    (probePhase w peers st).runStatus = (if h.Status = "S" then "A" else "S") ∧
    (probePhase w peers st).splitBrain = false := by
  rw [probePhase_eq, hlast]
  exact ⟨rfl, rfl⟩

theorem probePhase_last_response_decides_witness :
    (parsedResponses ["10.0.0.2:10001", "10.0.0.3:10001"] exampleWorldTwoPeers.peer).getLast? =
        some (exampleReply "A") ∧
    (probePhase exampleWorldTwoPeers ["10.0.0.2:10001", "10.0.0.3:10001"]
        (exampleState "10.0.0.2:10001,10.0.0.3:10001" false)).runStatus = "S" :=
  ⟨by decide,
   (probePhase_last_response_decides exampleWorldTwoPeers _ _ (exampleReply "A")
      (by decide)).1⟩


/-! ## Lemmas on the whole tick -/

theorem fHeartbeat_of_reachesProbe (w : World) (st : State) (h : ReachesProbe st) :
    fHeartbeat w st =
      if (probePhase w (strings.Split st.conf.ArbitrationPeerHosts) st).splitBrain then
        escalationPhase w st.splitBrain
          (probePhase w (strings.Split st.conf.ArbitrationPeerHosts) st)
      else probePhase w (strings.Split st.conf.ArbitrationPeerHosts) st := by
  obtain ⟨h1, h2⟩ := h
  simp [fHeartbeat, h1, h2]

/-- A tick in which some peer response parses ends after the probe phase. -/
theorem fHeartbeat_of_parsed (w : World) (st : State) (h : ReachesProbe st)
    (hp : parsedResponses (strings.Split st.conf.ArbitrationPeerHosts) w.peer ≠ []) :
    fHeartbeat w st = probePhase w (strings.Split st.conf.ArbitrationPeerHosts) st := by
  rw [fHeartbeat_of_reachesProbe w st h]
  have := (probePhase_splitBrain w (strings.Split st.conf.ArbitrationPeerHosts) st).1
  have hfalse : (probePhase w (strings.Split st.conf.ArbitrationPeerHosts) st).splitBrain
      = false := by
    cases hb : (probePhase w (strings.Split st.conf.ArbitrationPeerHosts) st).splitBrain with
    | false => rfl
    | true => exact absurd (this.mp hb) hp
  simp [hfalse]

/-- C10. A tick in which at least one peer response is successfully parsed does
not enter the escalation phase: it ends with `splitBrain` false, and its
outgoing calls are the GET requests of the probe round only, so it sends no
request to the witness and calls neither `SetActiveStatus` nor
`SetMasterReadOnly` on any cluster. -/
theorem fHeartbeat_parsed_no_escalation (w : World) (st : State) (h : ReachesProbe st)
    (hp : parsedResponses (strings.Split st.conf.ArbitrationPeerHosts) w.peer ≠ []) :
    (fHeartbeat w st).splitBrain = false ∧
    callsOf w st = probeEvents (strings.Split st.conf.ArbitrationPeerHosts) w.peer ∧
    (∀ e ∈ callsOf w st, ∃ url, e = Event.httpGet url) ∧
    (∀ e ∈ callsOf w st, (∀ url body, e ≠ Event.httpPost url body) ∧
      (∀ cl status, e ≠ Event.SetActiveStatus cl status) ∧
      (∀ cl, e ≠ Event.SetMasterReadOnly cl)) := by
  have hcalls : callsOf w st = probeEvents (strings.Split st.conf.ArbitrationPeerHosts) w.peer := by
    rw [callsOf, fHeartbeat_of_parsed w st h hp, probePhase_eq]
    simp
  have hsb : (fHeartbeat w st).splitBrain = false := by
    rw [fHeartbeat_of_parsed w st h hp]
    cases hb : (probePhase w (strings.Split st.conf.ArbitrationPeerHosts) st).splitBrain with
    | false => rfl
    | true =>
      exact absurd ((probePhase_splitBrain w _ st).1.mp hb) hp
  refine ⟨hsb, hcalls, ?_, ?_⟩
  · rw [hcalls]
    exact probeEvents_all_get _ _
  · rw [hcalls]
    intro e he
    obtain ⟨url, rfl⟩ := probeEvents_all_get _ _ e he
    exact ⟨fun _ _ => by simp, fun _ _ => by simp, fun _ => by simp⟩

theorem fHeartbeat_parsed_no_escalation_witness :
    (fHeartbeat exampleWorldTwoPeers
        (exampleState "10.0.0.2:10001,10.0.0.3:10001" true)).splitBrain = false ∧
    callsOf exampleWorldTwoPeers (exampleState "10.0.0.2:10001,10.0.0.3:10001" true) =
      [Event.httpGet "http://10.0.0.2:10001/heartbeat",
       Event.httpGet "http://10.0.0.3:10001/heartbeat"] :=
  have h := fHeartbeat_parsed_no_escalation exampleWorldTwoPeers
    (exampleState "10.0.0.2:10001,10.0.0.3:10001" true) ⟨by decide, by decide⟩ (by decide)
  ⟨h.1, h.2.1.trans (by decide)⟩


/-! ## Lemmas on the escalation phase -/

theorem reportEvents_emit (st : State) (e : Event) (cs : List Cluster) (ok : Nat → Bool) :
    reportEvents (st.emit e) cs ok = reportEvents st cs ok := by
  induction cs generalizing ok with
  | nil => rfl
  | cons cl rest ih =>
    simp only [reportEvents, ih]
    rfl

/-- Closed form of the report loop. -/
theorem reportLoop_eq (nr : String → Bool) (cs : List Cluster) (ok : Nat → Bool) (st : State)
    (hnr : nr (heartbeatURL st) = true) :
    reportLoop nr cs ok st =
      if allReported cs ok then
        .fallThrough { st with trace := st.trace ++ reportEvents st cs ok }
      else
        .returned { st with runStatus := "S", trace := st.trace ++ reportEvents st cs ok } := by
  induction cs generalizing ok st with
  | nil => simp [reportLoop, allReported, reportEvents]
  | cons cl rest ih =>
    have hnr2 : nr ("http://" ++ st.conf.ArbitrationSasHosts ++ "/heartbeat") = true := hnr
    simp only [reportLoop, allReported, reportEvents, hnr2, if_true]
    cases h0 : ok 0 with
    | false => simp [State.emit]
    | true =>
      simp only [if_true, Bool.true_and]
      rw [ih _ _ (by exact hnr), reportEvents_emit]
      simp [State.emit]

theorem allReported_iff (cs : List Cluster) (ok : Nat → Bool) :
    allReported cs ok = true ↔ ∀ i, i < cs.length → ok i = true := by
  induction cs generalizing ok with
  | nil => simp [allReported]
  | cons cl rest ih =>
    simp only [allReported, Bool.and_eq_true, ih, List.length_cons]
    constructor
    · rintro ⟨h0, hrest⟩ i hi
      cases i with
      | zero => exact h0
      | succ j => exact hrest j (by omega)
    · intro h
      exact ⟨h 0 (by omega), fun i hi => h (i + 1) (by omega)⟩

/-- When every registration gets a response, the report loop issues one POST per
cluster and nothing else. -/
theorem reportEvents_of_allReported (st : State) (cs : List Cluster) (ok : Nat → Bool)
    (h : allReported cs ok = true) :
    reportEvents st cs ok =
      cs.map (fun cl =>
        Event.httpPost ("http://" ++ st.conf.ArbitrationSasHosts ++ "/heartbeat")
          (jsonStr st cl)) := by
  induction cs generalizing ok with
  | nil => rfl
  | cons cl rest ih =>
    simp only [allReported, Bool.and_eq_true] at h
    simp [reportEvents, h.1, ih _ h.2]

/-- When some registration fails, the calls of the report loop are POSTs followed
by one `SetActiveStatus("S")`. -/
theorem reportEvents_of_not_allReported (st : State) (cs : List Cluster) (ok : Nat → Bool)
    (h : allReported cs ok = false) :
    ∀ e ∈ reportEvents st cs ok,
      (∃ url body, e = Event.httpPost url body) ∨ (∃ cl ∈ cs, e = Event.SetActiveStatus cl.name "S") := by
  induction cs generalizing ok with
  | nil => simp [allReported] at h
  | cons cl rest ih =>
    intro e he
    simp only [reportEvents, List.mem_cons] at he
    rcases he with he | he
    · exact Or.inl ⟨_, _, he⟩
    · cases h0 : ok 0 with
      | false =>
        simp [h0] at he
        exact Or.inr ⟨cl, by simp, he⟩
      | true =>
        simp only [h0, if_true] at he
        simp only [allReported, h0, Bool.true_and] at h
        rcases ih _ h e he with hpost | ⟨c, hc, hce⟩
        · exact Or.inl hpost
        · exact Or.inr ⟨c, List.mem_cons_of_mem _ hc, hce⟩

/-- A tick that escalates runs the escalation phase on the state left by a
probe round in which nothing parsed. -/
theorem fHeartbeat_of_escalates (w : World) (st : State) (h : Escalates w st) :
    fHeartbeat w st =
      escalationPhase w st.splitBrain
        { st with
          splitBrain := true
          trace := st.trace ++ probeEvents (strings.Split st.conf.ArbitrationPeerHosts) w.peer } := by
  obtain ⟨hr, hp⟩ := h
  rw [fHeartbeat_of_reachesProbe w st hr, probePhase_eq, hp]
  simp


theorem jsonStr_congr (st st2 : State) (cl : Cluster) (h1 : st2.conf = st.conf)
    (h2 : st2.runUUID = st.runUUID) (h3 : st2.runStatus = st.runStatus) :
    jsonStr st2 cl = jsonStr st cl := by
  simp only [jsonStr, h1, h2, h3]

theorem reportEvents_congr (st st2 : State) (cs : List Cluster) (ok : Nat → Bool)
    (h1 : st2.conf = st.conf) (h2 : st2.runUUID = st.runUUID)
    (h3 : st2.runStatus = st.runStatus) :
    reportEvents st2 cs ok = reportEvents st cs ok := by
  induction cs generalizing ok with
  | nil => rfl
  | cons cl rest ih =>
    simp only [reportEvents, ih, jsonStr_congr st st2 cl h1 h2 h3, h1]

theorem reportEvents_probed (st : State) (t : List Event) (cs : List Cluster)
    (ok : Nat → Bool) :
    reportEvents { st with splitBrain := true, trace := t } cs ok = reportEvents st cs ok :=
  reportEvents_congr st _ cs ok rfl rfl rfl

/-- An escalating tick in which a registration with the witness fails: the tick
returns from the report loop. -/
theorem fHeartbeat_of_registration_failed (w : World) (st : State) (h : Escalates w st)
    (hreq : w.BuildsRequests st)
    (hfail : allReported (w.rangeReport st.clusters) w.heartbeat = false) :
    fHeartbeat w st =
      { st with
        splitBrain := true
        runStatus := "S"
        trace := st.trace ++
          (probeEvents (strings.Split st.conf.ArbitrationPeerHosts) w.peer ++
            reportEvents st (w.rangeReport st.clusters) w.heartbeat) } := by
  rw [fHeartbeat_of_escalates w st h, escalationPhase, reportLoop_eq _ _ _ _ (by exact hreq.1)]
  simp [hfail, reportEvents_probed, List.append_assoc]

/-- An escalating tick in which every registration gets a response reaches the
arbitration loop. -/
theorem fHeartbeat_of_allReported (w : World) (st : State) (h : Escalates w st)
    (hreq : w.BuildsRequests st)
    (hok : allReported (w.rangeReport st.clusters) w.heartbeat = true) :
    fHeartbeat w st =
      arbitrationLoop w.newRequest st.splitBrain (w.rangeArbitration st.clusters) w.arbitrator
        { st with
          splitBrain := true
          trace := st.trace ++ preludeEvents w st } := by
  rw [fHeartbeat_of_escalates w st h, escalationPhase, reportLoop_eq _ _ _ _ (by exact hreq.1)]
  simp only [hok, if_true, reportEvents_probed, reportEvents_of_allReported st _ _ hok]
  cases hsb : st.splitBrain <;>
    simp [preludeEvents, hsb, State.emit, heartbeatURL, List.append_assoc]


theorem jsonStr_probed (st : State) (t : List Event) (cl : Cluster) :
    jsonStr { st with splitBrain := true, trace := t } cl = jsonStr st cl :=
  jsonStr_congr st _ cl rfl rfl rfl

/-- The arbitration loop when the request fails in transport or the answer does
not parse (lines 598-622). -/
theorem arbitrationLoop_failure (nr : String → Bool) (bck : Bool) (cl : Cluster)
    (rest : List Cluster) (o : ArbitratorOutcome) (st : State)
    (hnr : nr (arbitratorURL st) = true) (ho : o = .doError ∨ o = .invalidJSON) :
    arbitrationLoop nr bck (cl :: rest) o st =
      { st with
        runStatus := "S"
        trace := st.trace ++
          [Event.httpPost (arbitratorURL st) (jsonStr st cl), Event.SetActiveStatus cl.name "S",
           Event.SetMasterReadOnly cl.name] } := by
  have hnr2 : nr ("http://" ++ st.conf.ArbitrationSasHosts ++ "/arbitrator") = true := hnr
  rcases ho with rfl | rfl <;> simp [arbitrationLoop, State.emit, arbitratorURL, hnr2]

/-- The arbitration loop on a "winner" verdict (lines 623-630). -/
theorem arbitrationLoop_winner (nr : String → Bool) (bck : Bool) (cl : Cluster)
    (rest : List Cluster) (r : fHeartbeat.response) (st : State)
    (hnr : nr (arbitratorURL st) = true) (hr : r.Arbitration = "winner") :
    arbitrationLoop nr bck (cl :: rest) (.parsed r) st =
      { st with
        runStatus := "A"
        trace := st.trace ++
          [Event.httpPost (arbitratorURL st) (jsonStr st cl),
           Event.SetActiveStatus cl.name "A"] } := by
  have hnr2 : nr ("http://" ++ st.conf.ArbitrationSasHosts ++ "/arbitrator") = true := hnr
  simp [arbitrationLoop, State.emit, arbitratorURL, hr, hnr2]

/-- The arbitration loop on any other verdict (lines 631-642): the master is
forced read-only only under the guard `bcksplitbrain != splitBrain`. -/
theorem arbitrationLoop_looser (nr : String → Bool) (bck : Bool) (cl : Cluster)
    (rest : List Cluster) (r : fHeartbeat.response) (st : State)
    (hnr : nr (arbitratorURL st) = true) (hr : r.Arbitration ≠ "winner") :
    arbitrationLoop nr bck (cl :: rest) (.parsed r) st =
      { st with
        runStatus := "S"
        trace := st.trace ++
          ([Event.httpPost (arbitratorURL st) (jsonStr st cl)] ++
            (if (bck != st.splitBrain) = true ∧ r.Master ≠ cl.mst then
              [Event.SetMasterReadOnly cl.name] else []) ++
            [Event.SetActiveStatus cl.name "S"]) } := by
  have hmst : (match cl.master with
      | some u => u
      | none => (match cl.master with
        | some u => u
        | none => "")) = cl.mst := by
    cases hm : cl.master <;> simp [Cluster.mst, hm]
  have hnr2 : nr ("http://" ++ st.conf.ArbitrationSasHosts ++ "/arbitrator") = true := hnr
  simp only [arbitrationLoop, hr, if_false, hmst, hnr2, if_true]
  by_cases hb : (bck != st.splitBrain) = true
  · by_cases hm : r.Master = cl.mst
    · simp [hb, hm, State.emit, arbitratorURL]
    · simp [hb, hm, State.emit, arbitratorURL]
  · simp [hb, State.emit, arbitratorURL]

theorem preludeEvents_shape (w : World) (st : State) :
    ∀ e ∈ preludeEvents w st,
      (∃ url, e = Event.httpGet url) ∨ (∃ body, e = Event.httpPost (heartbeatURL st) body) ∨
        e = Event.Sleep 5 := by
  intro e he
  simp only [preludeEvents, List.mem_append, List.mem_map] at he
  rcases he with (he | ⟨cl, _, rfl⟩) | he
  · exact Or.inl (probeEvents_all_get _ _ e he)
  · exact Or.inr (Or.inl ⟨_, rfl⟩)
  · cases hsb : st.splitBrain <;> simp [hsb] at he
    exact Or.inr (Or.inr he)

theorem callsOf_eq (w : World) (st : State) (l : List Event)
    (h : (fHeartbeat w st).trace = st.trace ++ l) : callsOf w st = l := by
  simp [callsOf, h]


/-! ## The escalation phase: claims -/

/-- C7. In an escalating tick in which the request to the witness's `/arbitrator`
fails in transport or returns a body that does not parse, the processed cluster
is set Standby, `SetMasterReadOnly` is invoked on it, `runStatus` is set Standby,
and these two calls are the last of the tick: no further cluster is processed. -/
theorem fHeartbeat_arbitration_failure_fences (w : World) (st : State) (cl : Cluster)
    (rest : List Cluster) (h : Escalates w st) (hreq : w.BuildsRequests st)
    (hok : allReported (w.rangeReport st.clusters) w.heartbeat = true)
    (hcl : w.rangeArbitration st.clusters = cl :: rest)
    (hfail : w.arbitrator = .doError ∨ w.arbitrator = .invalidJSON) :
    (fHeartbeat w st).runStatus = "S" ∧
    callsOf w st =
      preludeEvents w st ++
        [Event.httpPost (arbitratorURL st) (jsonStr st cl), Event.SetActiveStatus cl.name "S",
         Event.SetMasterReadOnly cl.name] ∧
    Event.SetActiveStatus cl.name "S" ∈ callsOf w st ∧
    Event.SetMasterReadOnly cl.name ∈ callsOf w st ∧
    (∀ e ∈ preludeEvents w st, (∀ c s, e ≠ Event.SetActiveStatus c s) ∧
      (∀ c, e ≠ Event.SetMasterReadOnly c)) := by
  have hfin := fHeartbeat_of_allReported w st h hreq hok
  rw [hcl, arbitrationLoop_failure _ _ _ _ _ _ (by exact hreq.2) hfail] at hfin
  have hcalls : callsOf w st =
      preludeEvents w st ++
        [Event.httpPost (arbitratorURL st) (jsonStr st cl), Event.SetActiveStatus cl.name "S",
         Event.SetMasterReadOnly cl.name] := by
    apply callsOf_eq
    rw [hfin]
    simp [jsonStr_probed, arbitratorURL, List.append_assoc]
  refine ⟨by rw [hfin], hcalls, by simp [hcalls], by simp [hcalls], ?_⟩
  intro e he
  rcases preludeEvents_shape w st e he with ⟨u, rfl⟩ | ⟨b, rfl⟩ | rfl <;>
    exact ⟨fun _ _ => by simp, fun _ => by simp⟩

theorem fHeartbeat_arbitration_failure_fences_witness :
    (fHeartbeat (exampleWorld true .doError) (exampleState "10.0.0.2:10001" false)).runStatus
      = "S" ∧
    Event.SetMasterReadOnly "c1" ∈
      callsOf (exampleWorld true .doError) (exampleState "10.0.0.2:10001" false) :=
  have h := fHeartbeat_arbitration_failure_fences (exampleWorld true .doError)
    (exampleState "10.0.0.2:10001" false) exampleCluster []
    ⟨⟨by decide, by decide⟩, by decide⟩ ⟨rfl, rfl⟩ (by decide) (by decide) (Or.inl rfl)
  ⟨h.1, h.2.2.2.1⟩

/-- C5, as stated, fails: split-brain was already set before the tick, the witness
answers "looser" and elects `db2:3306` while the local master is `db1:3306`, and
`SetMasterReadOnly` is not invoked. -/
theorem fHeartbeat_looser_no_fencing_when_already_split :
    Escalates (exampleWorld true (.parsed ⟨"looser", "db2:3306"⟩))
      (exampleState "10.0.0.2:10001" true) ∧
    ("db2:3306" : String) ≠ exampleCluster.mst ∧
    (fHeartbeat (exampleWorld true (.parsed ⟨"looser", "db2:3306"⟩))
      (exampleState "10.0.0.2:10001" true)).runStatus = "S" ∧
    Event.SetMasterReadOnly "c1" ∉
      callsOf (exampleWorld true (.parsed ⟨"looser", "db2:3306"⟩))
        (exampleState "10.0.0.2:10001" true) :=
  ⟨⟨⟨by decide, by decide⟩, by decide⟩, by decide, by decide, by decide⟩

/-- C5, amended. In an escalating tick in which the witness answers the arbitration
request with a "looser" verdict, the processed cluster and the global `runStatus`
are set Standby, and `SetMasterReadOnly` is invoked on that cluster if and only
if split-brain was not already set when the tick started and the elected master
returned by the witness differs from the cluster's locally known master (empty
when it has none). -/
theorem fHeartbeat_looser (w : World) (st : State) (cl : Cluster) (rest : List Cluster)
    (r : fHeartbeat.response) (h : Escalates w st) (hreq : w.BuildsRequests st)
    (hok : allReported (w.rangeReport st.clusters) w.heartbeat = true)
    (hcl : w.rangeArbitration st.clusters = cl :: rest)
    (harb : w.arbitrator = .parsed r) (hr : r.Arbitration = "looser") :
    (fHeartbeat w st).runStatus = "S" ∧
    (callsOf w st).getLast? = some (Event.SetActiveStatus cl.name "S") ∧
    (Event.SetMasterReadOnly cl.name ∈ callsOf w st ↔
      st.splitBrain = false ∧ r.Master ≠ cl.mst) := by
  have hne : r.Arbitration ≠ "winner" := by rw [hr]; decide
  have hfin := fHeartbeat_of_allReported w st h hreq hok
  rw [hcl, harb, arbitrationLoop_looser _ _ _ _ _ _ (by exact hreq.2) hne] at hfin
  have hcalls : callsOf w st =
      preludeEvents w st ++
        ([Event.httpPost (arbitratorURL st) (jsonStr st cl)] ++
          (if st.splitBrain = false ∧ r.Master ≠ cl.mst then
            [Event.SetMasterReadOnly cl.name] else []) ++
          [Event.SetActiveStatus cl.name "S"]) := by
    apply callsOf_eq
    rw [hfin]
    cases hsb : st.splitBrain <;>
      simp [hsb, jsonStr_probed, arbitratorURL, List.append_assoc]
  have hpre : Event.SetMasterReadOnly cl.name ∉ preludeEvents w st := by
    intro hmem
    rcases preludeEvents_shape w st _ hmem with ⟨u, hu⟩ | ⟨b, hb⟩ | hs <;> simp at *
  refine ⟨by rw [hfin], ?_, ?_⟩
  · rw [hcalls, ← List.append_assoc, List.getLast?_append]
    simp
  · rw [hcalls]
    by_cases hc : st.splitBrain = false ∧ r.Master ≠ cl.mst
    · simp [hc]
    · simp only [hc, if_false, iff_false]
      simp [hpre]

theorem fHeartbeat_looser_witness :
    (fHeartbeat (exampleWorld true (.parsed ⟨"looser", "db2:3306"⟩))
      (exampleState "10.0.0.2:10001" false)).runStatus = "S" ∧
    Event.SetMasterReadOnly "c1" ∈
      callsOf (exampleWorld true (.parsed ⟨"looser", "db2:3306"⟩))
        (exampleState "10.0.0.2:10001" false) :=
  have h := fHeartbeat_looser (exampleWorld true (.parsed ⟨"looser", "db2:3306"⟩))
    (exampleState "10.0.0.2:10001" false) exampleCluster [] ⟨"looser", "db2:3306"⟩
    ⟨⟨by decide, by decide⟩, by decide⟩ ⟨rfl, rfl⟩ (by decide) (by decide) rfl rfl
  ⟨h.1, h.2.2.mpr ⟨by decide, by decide⟩⟩


/-- C1, the failing path. In an escalating tick in which a registration with the
witness's `/heartbeat` fails, the tick ends with `runStatus` Standby, but
`SetMasterReadOnly` is invoked on no cluster: the tick returns at line 571 after
`SetActiveStatus("S")` alone, whereas the same failure of the `/arbitrator`
request (lines 598-604) also calls `SetMasterReadOnly`. -/
theorem fHeartbeat_registration_failure_no_readonly (w : World) (st : State)
    (h : Escalates w st) (hreq : w.BuildsRequests st)
    (hfail : allReported (w.rangeReport st.clusters) w.heartbeat = false) :
    (fHeartbeat w st).runStatus = "S" ∧
    (∀ c, Event.SetMasterReadOnly c ∉ callsOf w st) ∧
    (∃ cl ∈ w.rangeReport st.clusters,
      (callsOf w st).getLast? = some (Event.SetActiveStatus cl.name "S")) := by
  have hfin := fHeartbeat_of_registration_failed w st h hreq hfail
  have hcalls : callsOf w st =
      probeEvents (strings.Split st.conf.ArbitrationPeerHosts) w.peer ++
        reportEvents st (w.rangeReport st.clusters) w.heartbeat := by
    apply callsOf_eq
    rw [hfin]
  have hlast : ∀ (cs : List Cluster) (ok : Nat → Bool), allReported cs ok = false →
      ∃ cl ∈ cs, (reportEvents st cs ok).getLast? = some (Event.SetActiveStatus cl.name "S") := by
    intro cs
    induction cs with
    | nil => intro ok hf; simp [allReported] at hf
    | cons c rest ih =>
      intro ok hf
      cases h0 : ok 0 with
      | false => exact ⟨c, by simp, by simp [reportEvents, h0]⟩
      | true =>
        simp only [allReported, h0, Bool.true_and] at hf
        obtain ⟨cl, hcl, hl⟩ := ih _ hf
        refine ⟨cl, List.mem_cons_of_mem _ hcl, ?_⟩
        simp only [reportEvents, h0, if_true]
        rw [getLast?_cons_eq, hl]
        rfl
  refine ⟨by rw [hfin], ?_, ?_⟩
  · intro c hmem
    rw [hcalls, List.mem_append] at hmem
    rcases hmem with hmem | hmem
    · obtain ⟨u, hu⟩ := probeEvents_all_get _ _ _ hmem
      simp at hu
    · rcases reportEvents_of_not_allReported st _ _ hfail _ hmem with ⟨u, b, hu⟩ | ⟨cl, _, hu⟩ <;>
        simp at hu
  · obtain ⟨cl, hcl, hl⟩ := hlast _ _ hfail
    refine ⟨cl, hcl, ?_⟩
    rw [hcalls, List.getLast?_append, hl]
    rfl

theorem fHeartbeat_registration_failure_no_readonly_witness :
    Escalates (exampleWorld false .doError) (exampleState "10.0.0.2:10001" false) ∧
    (fHeartbeat (exampleWorld false .doError) (exampleState "10.0.0.2:10001" false)).runStatus
      = "S" ∧
    callsOf (exampleWorld false .doError) (exampleState "10.0.0.2:10001" false) =
      [Event.httpGet "http://10.0.0.2:10001/heartbeat",
       Event.httpPost "http://10.0.0.9:8080/heartbeat"
         (jsonStr (exampleState "10.0.0.2:10001" false) exampleCluster),
       Event.SetActiveStatus "c1" "S"] ∧
    Event.SetMasterReadOnly "c1" ∉
      callsOf (exampleWorld false .doError) (exampleState "10.0.0.2:10001" false) :=
  have he : Escalates (exampleWorld false .doError) (exampleState "10.0.0.2:10001" false) :=
    ⟨⟨by decide, by decide⟩, by decide⟩
  have h := fHeartbeat_registration_failure_no_readonly (exampleWorld false .doError)
    (exampleState "10.0.0.2:10001" false) he ⟨rfl, rfl⟩ (by decide)
  ⟨he, h.1, by decide, h.2.1 "c1"⟩

/-- When `http.NewRequest` builds the witness requests, an escalating tick with at
least one managed cluster ends with `runStatus` Active if and only if every registration with the witness's `/heartbeat`
succeeded and the `/arbitrator` response was received, parsed, and has the
arbitration field "winner"; in that case the last call of the tick sets the
processed cluster Active, and in every other case `runStatus` ends Standby. -/
theorem fHeartbeat_active_iff_winner (w : World) (st : State) (h : Escalates w st)
    (hreq : w.BuildsRequests st) (hperm : w.RangesArePerms) (hne : st.clusters ≠ []) :
    ((fHeartbeat w st).runStatus = "A" ↔
      (∀ i, i < st.clusters.length → w.heartbeat i = true) ∧
        ∃ r, w.arbitrator = .parsed r ∧ r.Arbitration = "winner") ∧
    ((fHeartbeat w st).runStatus = "A" →
      ∃ cl rest, w.rangeArbitration st.clusters = cl :: rest ∧
        (callsOf w st).getLast? = some (Event.SetActiveStatus cl.name "A")) ∧
    ((fHeartbeat w st).runStatus ≠ "A" → (fHeartbeat w st).runStatus = "S") := by
  have hlen : (w.rangeReport st.clusters).length = st.clusters.length :=
    (hperm st.clusters).1.length_eq
  have hall : allReported (w.rangeReport st.clusters) w.heartbeat = true ↔
      ∀ i, i < st.clusters.length → w.heartbeat i = true := by
    rw [allReported_iff, hlen]
  have hSA : ("S" : String) ≠ "A" := by decide
  cases hrep : allReported (w.rangeReport st.clusters) w.heartbeat with
  | false =>
    have hfin := fHeartbeat_of_registration_failed w st h hreq hrep
    have hS : (fHeartbeat w st).runStatus = "S" := by rw [hfin]
    have hnot : ¬ ∀ i, i < st.clusters.length → w.heartbeat i = true := by
      intro hc
      rw [hall.mpr hc] at hrep
      exact Bool.noConfusion hrep
    refine ⟨?_, ?_, fun _ => hS⟩
    · rw [hS]
      exact ⟨fun hc => absurd hc hSA, fun hc => absurd hc.1 hnot⟩
    · rw [hS]
      exact fun hc => absurd hc hSA
  | true =>
    have hfin := fHeartbeat_of_allReported w st h hreq hrep
    obtain ⟨cl, rest, hcl⟩ : ∃ cl rest, w.rangeArbitration st.clusters = cl :: rest := by
      cases hr : w.rangeArbitration st.clusters with
      | nil =>
        have := (hperm st.clusters).2
        rw [hr] at this
        exact absurd this.nil_eq.symm hne
      | cons c r => exact ⟨c, r, rfl⟩
    rw [hcl] at hfin
    cases harb : w.arbitrator with
    | doError =>
      rw [harb, arbitrationLoop_failure _ _ _ _ _ _ (by exact hreq.2) (Or.inl rfl)] at hfin
      have hS : (fHeartbeat w st).runStatus = "S" := by rw [hfin]
      refine ⟨?_, ?_, fun _ => hS⟩
      · rw [hS]
        exact ⟨fun hc => absurd hc hSA, fun ⟨_, r, hr, _⟩ => by simp at hr⟩
      · rw [hS]
        exact fun hc => absurd hc hSA
    | invalidJSON =>
      rw [harb, arbitrationLoop_failure _ _ _ _ _ _ (by exact hreq.2) (Or.inr rfl)] at hfin
      have hS : (fHeartbeat w st).runStatus = "S" := by rw [hfin]
      refine ⟨?_, ?_, fun _ => hS⟩
      · rw [hS]
        exact ⟨fun hc => absurd hc hSA, fun ⟨_, r, hr, _⟩ => by simp at hr⟩
      · rw [hS]
        exact fun hc => absurd hc hSA
    | parsed r =>
      by_cases hw : r.Arbitration = "winner"
      · rw [harb, arbitrationLoop_winner _ _ _ _ _ _ (by exact hreq.2) hw] at hfin
        have hA : (fHeartbeat w st).runStatus = "A" := by rw [hfin]
        have hcalls : callsOf w st =
            preludeEvents w st ++
              [Event.httpPost (arbitratorURL st) (jsonStr st cl),
               Event.SetActiveStatus cl.name "A"] := by
          apply callsOf_eq
          rw [hfin]
          simp [jsonStr_probed, arbitratorURL]
        refine ⟨?_, ?_, fun hc => absurd hA hc⟩
        · exact ⟨fun _ => ⟨hall.mp hrep, r, rfl, hw⟩, fun _ => hA⟩
        · intro _
          refine ⟨cl, rest, hcl, ?_⟩
          rw [hcalls, List.getLast?_append]
          simp
      · rw [harb, arbitrationLoop_looser _ _ _ _ _ _ (by exact hreq.2) hw] at hfin
        have hS : (fHeartbeat w st).runStatus = "S" := by rw [hfin]
        refine ⟨?_, ?_, fun _ => hS⟩
        · rw [hS]
          refine ⟨fun hc => absurd hc hSA, fun ⟨_, r2, hr2, hw2⟩ => ?_⟩
          simp only [ArbitratorOutcome.parsed.injEq] at hr2
          rw [← hr2] at hw2
          exact absurd hw2 hw
        · rw [hS]
          exact fun hc => absurd hc hSA

theorem fHeartbeat_active_iff_winner_witness :
    (fHeartbeat (exampleWorld true (.parsed ⟨"winner", "db1:3306"⟩))
      (exampleState "10.0.0.2:10001" false)).runStatus = "A" :=
  (fHeartbeat_active_iff_winner (exampleWorld true (.parsed ⟨"winner", "db1:3306"⟩))
    (exampleState "10.0.0.2:10001" false) ⟨⟨by decide, by decide⟩, by decide⟩ ⟨rfl, rfl⟩
    (fun l => ⟨List.Perm.refl l, List.Perm.refl l⟩) (by decide)).1.mpr
    ⟨fun _ _ => rfl, ⟨"winner", "db1:3306"⟩, rfl, rfl⟩


/-! ## The witness: handlerArbitrator -/

/-- C2, the failing path. For every request body that fails to decode,
`handlerArbitrator` answers 422 with the error, and then, for want of a `return`
after line 124 (both `handlerHeartbeat` and `handlerForget` have one), goes on to
call `RequestArbitration` and `GetArbitrationMaster` with the fields left in `h`
and appends a verdict to the response body; the store is the one
`RequestArbitration` returns. -/
theorem handlerArbitrator_decode_error_falls_through {σ : Type} (db : dbhelper σ)
    (Unmarshal : List UInt8 → Unmarshalled) (r : Request) (s : σ) (err : String)
    (h : heartbeat) (hread : r.ReadAllErr = none) (hclose : r.CloseErr = none)
    (hdec : Unmarshal (r.Body.take 1048576) = .error err h) :
    handlerArbitrator db Unmarshal r s = .ok
      { w :=
          { contentType := some "application/json; charset=UTF-8"
            status := some 422
            body :=
              [Encoded.error err,
               Encoded.response
                { Arbitration :=
                    if (db.RequestArbitration s h.UUID h.Secret h.Cluster h.Master h.UID h.Hosts
                      h.Failed).1 then "winner" else "looser"
                  ElectedMaster :=
                    db.GetArbitrationMaster
                      (db.RequestArbitration s h.UUID h.Secret h.Cluster h.Master h.UID h.Hosts
                        h.Failed).2 h.Secret h.Cluster }] }
        db :=
          (db.RequestArbitration s h.UUID h.Secret h.Cluster h.Master h.UID h.Hosts h.Failed).2
        calls :=
          [Call.RequestArbitration h.UUID h.Secret h.Cluster h.Master h.UID h.Hosts h.Failed,
           Call.GetArbitrationMaster h.Secret h.Cluster] } := by
  simp only [handlerArbitrator, hread, hclose, hdec, handlerArbitrator.verdict]
  cases (db.RequestArbitration s h.UUID h.Secret h.Cluster h.Master h.UID h.Hosts h.Failed).1 <;>
    rfl

theorem handlerArbitrator_decode_error_falls_through_witness :
    handlerArbitrator Store.dbhelper (fun _ => .error "invalid character" heartbeat.zero)
        exampleRequest [] = .ok
      { w :=
          { contentType := some "application/json; charset=UTF-8"
            status := some 422
            body := [Encoded.error "invalid character", Encoded.response ⟨"winner", ""⟩] }
        db := [{ UUID := "", Secret := "", Cluster := "", Master := "", UID := 0, Hosts := 0,
                 Failed := 0 }]
        calls :=
          [Call.RequestArbitration "" "" "" "" 0 0 0, Call.GetArbitrationMaster "" ""] } :=
  handlerArbitrator_decode_error_falls_through Store.dbhelper
    (fun _ => .error "invalid character" heartbeat.zero) exampleRequest []
    "invalid character" heartbeat.zero rfl rfl rfl

/-- C3. For every request body that decodes to a message `h`, `handlerArbitrator`
calls `RequestArbitration` once with `h`'s UUID, Secret, Cluster, Master, UID,
Hosts and Failed, then `GetArbitrationMaster` with `h`'s Secret and Cluster on
the store the decision left, and answers 201 with one body whose arbitration
field is "winner" when the decision returned true and "looser" otherwise, and
whose master field is the result of that lookup. -/
theorem handlerArbitrator_decoded {σ : Type} (db : dbhelper σ)
    (Unmarshal : List UInt8 → Unmarshalled) (r : Request) (s : σ) (h : heartbeat)
    (hread : r.ReadAllErr = none) (hclose : r.CloseErr = none)
    (hdec : Unmarshal (r.Body.take 1048576) = .ok h) :
    handlerArbitrator db Unmarshal r s = .ok
      { w :=
          { contentType := some "application/json; charset=UTF-8"
            status := some 201
            body :=
              [Encoded.response
                { Arbitration :=
                    if (db.RequestArbitration s h.UUID h.Secret h.Cluster h.Master h.UID h.Hosts
                      h.Failed).1 then "winner" else "looser"
                  ElectedMaster :=
                    db.GetArbitrationMaster
                      (db.RequestArbitration s h.UUID h.Secret h.Cluster h.Master h.UID h.Hosts
                        h.Failed).2 h.Secret h.Cluster }] }
        db :=
          (db.RequestArbitration s h.UUID h.Secret h.Cluster h.Master h.UID h.Hosts h.Failed).2
        calls :=
          [Call.RequestArbitration h.UUID h.Secret h.Cluster h.Master h.UID h.Hosts h.Failed,
           Call.GetArbitrationMaster h.Secret h.Cluster] } := by
  simp only [handlerArbitrator, hread, hclose, hdec, handlerArbitrator.verdict]
  cases (db.RequestArbitration s h.UUID h.Secret h.Cluster h.Master h.UID h.Hosts h.Failed).1 <;>
    rfl

theorem handlerArbitrator_decoded_witness :
    handlerArbitrator Store.dbhelper (fun _ => .ok exampleMessage) exampleRequest
        exampleStore = .ok
      { w :=
          { contentType := some "application/json; charset=UTF-8"
            status := some 201
            body := [Encoded.response ⟨"winner", "db1:3306"⟩] }
        db := [{ UUID := "run-1", Secret := "s3cret", Cluster := "c1", Master := "db1:3306",
                 UID := 20, Hosts := 5, Failed := 1 }]
        calls :=
          [Call.RequestArbitration "run-1" "s3cret" "c1" "db1:3306" 20 5 1,
           Call.GetArbitrationMaster "s3cret" "c1"] } :=
  handlerArbitrator_decoded Store.dbhelper (fun _ => .ok exampleMessage)
    exampleRequest exampleStore exampleMessage rfl rfl rfl

/-! ## Two instances -/

/-- A tick of an instance whose only peer answers with the message `h`: the probe
phase decides and nothing else changes but the trace. -/
theorem tick_of_peer_reply (w : World) (st : State) (h : heartbeat) (hst : PeeredInstance st)
    (hw : w.peer = fun _ => .response (some h)) :
    ∃ t, tick w st = { st with splitBrain := false, runStatus := roleAgainst h, trace := t } := by
  obtain ⟨hlive, harb, hcfg, hhosts, hlen⟩ := hst
  obtain ⟨p, hp⟩ := List.length_eq_one.mp hlen
  have hparsed : parsedResponses (strings.Split st.conf.ArbitrationPeerHosts) w.peer = [h] := by
    rw [hp, hw]
    rfl
  have hfin := fHeartbeat_of_parsed w st ⟨hcfg, hhosts⟩ (by rw [hparsed]; simp)
  rw [probePhase_eq, hparsed] at hfin
  exact ⟨_, by simp only [tick, hlive, harb, if_true, hfin]; rfl⟩

/-- What holds of the two instances after at least one tick. -/
theorem step_invariant (reply : State → heartbeat)
    (hreply : ∀ st, (reply st).Status = st.runStatus) (s : System) (t : Turn)
    (ha : PeeredInstance s.a) (hb : PeeredInstance s.b)
    (hs : (s.a.runStatus = "S" ∧ s.b.runStatus = "S") ∨
      (s.a.runStatus = "A" ∧ s.b.runStatus = "S") ∨ (s.a.runStatus = "S" ∧ s.b.runStatus = "A")) :
    PeeredInstance (s.step reply t).a ∧ PeeredInstance (s.step reply t).b ∧
      (((s.step reply t).a.runStatus = "A" ∧ (s.step reply t).b.runStatus = "S") ∨
        ((s.step reply t).a.runStatus = "S" ∧ (s.step reply t).b.runStatus = "A")) := by
  have hAS : ("A" : String) ≠ "S" := by decide
  cases t with
  | a w =>
    obtain ⟨tr, htick⟩ := tick_of_peer_reply
      { w with peer := fun _ => .response (some (reply s.b)) } s.a (reply s.b) ha rfl
    simp only [System.step, htick]
    refine ⟨ha, hb, ?_⟩
    simp only [roleAgainst, hreply]
    rcases hs with ⟨_, h2⟩ | ⟨_, h2⟩ | ⟨_, h2⟩
    · exact Or.inl ⟨by simp [h2], h2⟩
    · exact Or.inl ⟨by simp [h2], h2⟩
    · exact Or.inr ⟨by simp [h2, hAS], h2⟩
  | b w =>
    obtain ⟨tr, htick⟩ := tick_of_peer_reply
      { w with peer := fun _ => .response (some (reply s.a)) } s.b (reply s.a) hb rfl
    simp only [System.step, htick]
    refine ⟨ha, hb, ?_⟩
    simp only [roleAgainst, hreply]
    rcases hs with ⟨h1, _⟩ | ⟨h1, _⟩ | ⟨h1, _⟩
    · exact Or.inr ⟨h1, by simp [h1]⟩
    · exact Or.inl ⟨h1, by simp [h1, hAS]⟩
    · exact Or.inr ⟨h1, by simp [h1]⟩

theorem run_invariant (reply : State → heartbeat)
    (hreply : ∀ st, (reply st).Status = st.runStatus) (sched : List Turn) (s : System)
    (ha : PeeredInstance s.a) (hb : PeeredInstance s.b)
    (hs : (s.a.runStatus = "A" ∧ s.b.runStatus = "S") ∨
      (s.a.runStatus = "S" ∧ s.b.runStatus = "A")) :
    ((System.run reply sched s).a.runStatus = "A" ∧ (System.run reply sched s).b.runStatus = "S") ∨
      ((System.run reply sched s).a.runStatus = "S" ∧
        (System.run reply sched s).b.runStatus = "A") := by
  induction sched generalizing s with
  | nil => exact hs
  | cons t rest ih =>
    obtain ⟨ha2, hb2, hs2⟩ := step_invariant reply hreply s t ha hb (Or.inr hs)
    exact ih _ ha2 hb2 hs2

/-- C8. Two monitor instances with arbitration enabled, each with the other as
its only peer and each always reaching the other (whose status endpoint reports
its `runStatus`), start as `monitorCmd` starts them, both Standby. After any
non-empty sequence of atomic ticks, in any interleaving, exactly one of them has
`runStatus` Active. -/
theorem two_instances_exactly_one_active (reply : State → heartbeat)
    (hreply : ∀ st, (reply st).Status = st.runStatus)
    (ga gb ua ub : String) (ca cb : Config) (cla clb : List Cluster)
    (ha : PeeredInstance (monitorCmd.start (init ga ca ua cla)))
    (hb : PeeredInstance (monitorCmd.start (init gb cb ub clb)))
    (sched : List Turn) (hne : sched ≠ []) :
    (System.run reply sched
      { a := monitorCmd.start (init ga ca ua cla),
        b := monitorCmd.start (init gb cb ub clb) }).ExactlyOneActive := by
  have hSA : ("S" : String) ≠ "A" := by decide
  have hstart : ∀ (g u : String) (c : Config) (cl : List Cluster),
      PeeredInstance (monitorCmd.start (init g c u cl)) →
        (monitorCmd.start (init g c u cl)).runStatus = "S" := by
    intro g u c cl hp
    have hc : c.Arbitration = true := by
      have := hp.2.1
      simp only [monitorCmd.start, init] at this
      split at this <;> simp_all
    simp [monitorCmd.start, init, hc]
  cases sched with
  | nil => exact absurd rfl hne
  | cons t rest =>
    obtain ⟨ha2, hb2, hs2⟩ := step_invariant reply hreply
      { a := monitorCmd.start (init ga ca ua cla), b := monitorCmd.start (init gb cb ub clb) } t
      ha hb (Or.inl ⟨hstart _ _ _ _ ha, hstart _ _ _ _ hb⟩)
    show (System.run reply rest _).ExactlyOneActive
    rcases run_invariant reply hreply rest _ ha2 hb2 hs2 with ⟨h1, h2⟩ | ⟨h1, h2⟩
    · exact Or.inl ⟨h1, by rw [h2]; exact hSA⟩
    · exact Or.inr ⟨by rw [h1]; exact hSA, h2⟩

theorem two_instances_exactly_one_active_witness :
    (System.run exampleStatusEndpoint
      [Turn.b (exampleWorld true .doError), Turn.a (exampleWorld true .doError)]
      exampleSystem).ExactlyOneActive :=
  two_instances_exactly_one_active exampleStatusEndpoint (fun _ => rfl)
    "c1" "c1" "run-1" "run-2" (exampleConf "10.0.0.2:10001") (exampleConf "10.0.0.1:10001")
    [exampleCluster] [exampleCluster]
    ⟨by decide, by decide, by decide, by decide, by decide⟩
    ⟨by decide, by decide, by decide, by decide, by decide⟩
    [Turn.b (exampleWorld true .doError), Turn.a (exampleWorld true .doError)] (by simp)


/-! ## The witness: handlerHeartbeat, handlerForget and the routes -/

/-- What `handlerHeartbeat` does with a body that fails to decode. -/
theorem handlerHeartbeat_of_error {σ : Type} (db : dbhelper σ)
    (Unmarshal : List UInt8 → Unmarshalled) (r : Request) (s : σ) (err : String)
    (h : heartbeat) (hread : r.ReadAllErr = none) (hclose : r.CloseErr = none)
    (hdec : Unmarshal (r.Body.take 1048576) = .error err h) :
    handlerHeartbeat db Unmarshal r s = .ok
      { w :=
          { contentType := some "application/json; charset=UTF-8"
            status := some 422
            body := [Encoded.error err] }
        db := s
        calls := [] } := by
  simp only [handlerHeartbeat, hread, hclose, hdec]
  rfl

/-- What `handlerHeartbeat` does with a body that decodes. -/
theorem handlerHeartbeat_of_ok {σ : Type} (db : dbhelper σ)
    (Unmarshal : List UInt8 → Unmarshalled) (r : Request) (s : σ) (h : heartbeat)
    (hread : r.ReadAllErr = none) (hclose : r.CloseErr = none)
    (hdec : Unmarshal (r.Body.take 1048576) = .ok h) :
    handlerHeartbeat db Unmarshal r s = .ok
      { w :=
          { contentType := some "application/json; charset=UTF-8"
            status := some 200
            body :=
              [Encoded.string
                (match (db.WriteHeartbeat s h.UUID h.Secret h.Cluster h.Master h.UID h.Hosts
                    h.Failed).1 with
                  | none => "\x7b\"heartbeat\":\"succed\"\x7d"
                  | some _ => "\x7b\"heartbeat\":\"failed\"\x7d")] }
        db := (db.WriteHeartbeat s h.UUID h.Secret h.Cluster h.Master h.UID h.Hosts h.Failed).2
        calls :=
          [Call.WriteHeartbeat h.UUID h.Secret h.Cluster h.Master h.UID h.Hosts h.Failed] } := by
  simp only [handlerHeartbeat, hread, hclose, hdec]
  rfl

/-- C13. For every request `handlerHeartbeat` either panics on a failed read or
close of the body, or answers; when it answers it has made no store call or the
single call `WriteHeartbeat`, never `RequestArbitration`, `GetArbitrationMaster`
or `ForgetArbitration`, and nothing in its response body is a verdict. -/
theorem handlerHeartbeat_never_decides {σ : Type} (db : dbhelper σ)
    (Unmarshal : List UInt8 → Unmarshalled) (r : Request) (s : σ) :
    match handlerHeartbeat db Unmarshal r s with
    | .error _ => r.ReadAllErr ≠ none ∨ r.CloseErr ≠ none
    | .ok out =>
      (out.calls = [] ∨
        ∃ h : heartbeat, out.calls =
          [Call.WriteHeartbeat h.UUID h.Secret h.Cluster h.Master h.UID h.Hosts h.Failed]) ∧
      (∀ c ∈ out.calls,
        (∀ uuid secret cluster master uid hosts failed,
          c ≠ Call.RequestArbitration uuid secret cluster master uid hosts failed) ∧
        (∀ secret cluster, c ≠ Call.GetArbitrationMaster secret cluster) ∧
        (∀ secret, c ≠ Call.ForgetArbitration secret)) ∧
      (∀ e ∈ out.w.body, ∀ send, e ≠ Encoded.response send) := by
  cases hread : r.ReadAllErr with
  | some err => simp [handlerHeartbeat, hread]
  | none =>
    cases hclose : r.CloseErr with
    | some err => simp [handlerHeartbeat, hread, hclose]
    | none =>
      cases hdec : Unmarshal (r.Body.take 1048576) with
      | error err h =>
        rw [handlerHeartbeat_of_error db Unmarshal r s err h hread hclose hdec]
        simp
      | ok h =>
        rw [handlerHeartbeat_of_ok db Unmarshal r s h hread hclose hdec]
        refine ⟨Or.inr ⟨h, rfl⟩, ?_, ?_⟩
        · intro c hc
          simp only [List.mem_singleton] at hc
          subst hc
          exact ⟨fun _ _ _ _ _ _ _ => by simp, fun _ _ => by simp, fun _ => by simp⟩
        · intro e he
          simp only [List.mem_singleton] at he
          subst he
          intro send
          simp

/-- C14. When the body fails to decode, `handlerHeartbeat` answers 422 with the
error and makes no store call, leaving the store as it was; when the body
decodes to `h`, it calls `WriteHeartbeat` exactly once, with `h`'s UUID, Secret,
Cluster, Master, UID, Hosts and Failed, and makes no other store call. -/
theorem handlerHeartbeat_decode {σ : Type} (db : dbhelper σ)
    (Unmarshal : List UInt8 → Unmarshalled) (r : Request) (s : σ)
    (hread : r.ReadAllErr = none) (hclose : r.CloseErr = none) :
    (∀ err h, Unmarshal (r.Body.take 1048576) = .error err h →
      handlerHeartbeat db Unmarshal r s = .ok
        { w :=
            { contentType := some "application/json; charset=UTF-8"
              status := some 422
              body := [Encoded.error err] }
          db := s
          calls := [] }) ∧
    (∀ h, Unmarshal (r.Body.take 1048576) = .ok h →
      ∃ w, handlerHeartbeat db Unmarshal r s = .ok
        { w := w
          db :=
            (db.WriteHeartbeat s h.UUID h.Secret h.Cluster h.Master h.UID h.Hosts h.Failed).2
          calls :=
            [Call.WriteHeartbeat h.UUID h.Secret h.Cluster h.Master h.UID h.Hosts
              h.Failed] }) :=
  ⟨fun err h hdec => handlerHeartbeat_of_error db Unmarshal r s err h hread hclose hdec,
   fun h hdec => ⟨_, handlerHeartbeat_of_ok db Unmarshal r s h hread hclose hdec⟩⟩

theorem handlerHeartbeat_decode_witness :
    handlerHeartbeat Store.dbhelper (fun _ => .error "invalid character" heartbeat.zero)
        exampleRequest exampleStore = .ok
      { w :=
          { contentType := some "application/json; charset=UTF-8"
            status := some 422
            body := [Encoded.error "invalid character"] }
        db := exampleStore
        calls := [] } ∧
    ∃ w, handlerHeartbeat Store.dbhelper (fun _ => .ok exampleMessage) exampleRequest
        exampleStore = .ok
      { w := w
        db := [{ UUID := "run-1", Secret := "s3cret", Cluster := "c1", Master := "db1:3306",
                 UID := 20, Hosts := 5, Failed := 1 }]
        calls := [Call.WriteHeartbeat "run-1" "s3cret" "c1" "db1:3306" 20 5 1] } :=
  ⟨(handlerHeartbeat_decode Store.dbhelper (fun _ => .error "invalid character" heartbeat.zero)
      exampleRequest exampleStore rfl rfl).1 "invalid character" heartbeat.zero rfl,
   (handlerHeartbeat_decode Store.dbhelper (fun _ => .ok exampleMessage)
      exampleRequest exampleStore rfl rfl).2 exampleMessage rfl⟩


/-- C16, the failing path. For every body that decodes, the single value
`handlerHeartbeat` encodes into the response is the Go string `send`, whose text
is the object notation for succed or failed. `Encode` of a Go string writes a
JSON string, so the body read as JSON is a string holding that text, and not an
object with a member `heartbeat`. -/
theorem handlerHeartbeat_body_is_json_string {σ : Type} (db : dbhelper σ)
    (Unmarshal : List UInt8 → Unmarshalled) (r : Request) (s : σ) (h : heartbeat)
    (hread : r.ReadAllErr = none) (hclose : r.CloseErr = none)
    (hdec : Unmarshal (r.Body.take 1048576) = .ok h) :
    ∃ send w,
      (send = "\x7b\"heartbeat\":\"succed\"\x7d" ∨ send = "\x7b\"heartbeat\":\"failed\"\x7d") ∧
      (send = "\x7b\"heartbeat\":\"succed\"\x7d" ↔
        (db.WriteHeartbeat s h.UUID h.Secret h.Cluster h.Master h.UID h.Hosts h.Failed).1
          = none) ∧
      (handlerHeartbeat db Unmarshal r s).toOption = some w ∧
      w.w.body = [Encoded.string send] ∧
      (Encoded.string send).value = some (JSON.string send) ∧
      ∀ members, (Encoded.string send).value ≠ some (JSON.object members) := by
  rw [handlerHeartbeat_of_ok db Unmarshal r s h hread hclose hdec]
  cases hres : (db.WriteHeartbeat s h.UUID h.Secret h.Cluster h.Master h.UID h.Hosts
      h.Failed).1 with
  | none =>
    exact ⟨_, _, Or.inl rfl, by simp, rfl, rfl, rfl, fun _ => by simp [Encoded.value]⟩
  | some e =>
    refine ⟨_, _, Or.inr rfl, ?_, rfl, rfl, rfl, fun _ => by simp [Encoded.value]⟩
    simp only [reduceCtorEq, iff_false]
    decide

theorem handlerHeartbeat_body_is_json_string_witness :
    ∃ send w,
      (send = "\x7b\"heartbeat\":\"succed\"\x7d" ∨ send = "\x7b\"heartbeat\":\"failed\"\x7d") ∧
      (send = "\x7b\"heartbeat\":\"succed\"\x7d" ↔
        (Store.dbhelper.WriteHeartbeat exampleStore exampleMessage.UUID exampleMessage.Secret
          exampleMessage.Cluster exampleMessage.Master exampleMessage.UID exampleMessage.Hosts
          exampleMessage.Failed).1 = none) ∧
      (handlerHeartbeat Store.dbhelper (fun _ => .ok exampleMessage) exampleRequest
        exampleStore).toOption = some w ∧
      w.w.body = [Encoded.string send] ∧
      (Encoded.string send).value = some (JSON.string send) ∧
      ∀ members, (Encoded.string send).value ≠ some (JSON.object members) :=
  handlerHeartbeat_body_is_json_string Store.dbhelper (fun _ => .ok exampleMessage)
    exampleRequest exampleStore exampleMessage rfl rfl rfl

/-- What `handlerForget` does with a body that decodes. -/
theorem handlerForget_of_ok {σ : Type} (db : dbhelper σ)
    (Unmarshal : List UInt8 → Unmarshalled) (r : Request) (s : σ) (h : heartbeat)
    (hread : r.ReadAllErr = none) (hclose : r.CloseErr = none)
    (hdec : Unmarshal (r.Body.take 1048576) = .ok h) :
    handlerForget db Unmarshal r s = .ok
      { w :=
          { contentType := some "application/json; charset=UTF-8"
            status := some 200
            body :=
              [Encoded.string
                (match (db.ForgetArbitration s h.Secret).1 with
                  | none => "\x7b\"heartbeat\":\"succed\"\x7d"
                  | some _ => "\x7b\"heartbeat\":\"failed\"\x7d")] }
        db := (db.ForgetArbitration s h.Secret).2
        calls := [Call.ForgetArbitration h.Secret] } := by
  simp only [handlerForget, hread, hclose, hdec]
  rfl

/-- C17. `handlerForget` depends on the decoded message only through its Secret:
two requests whose bodies decode to messages with the same Secret, served on the
same store, give the same result, which is the single call `ForgetArbitration`
with that Secret, the store that call leaves, and one encoded string that is
the succed text if and only if the call returned no error (else the failed
text). -/
theorem handlerForget_depends_on_secret {σ : Type} (db : dbhelper σ)
    (Unmarshal : List UInt8 → Unmarshalled) (r1 r2 : Request) (s : σ) (h1 h2 : heartbeat)
    (hread1 : r1.ReadAllErr = none) (hclose1 : r1.CloseErr = none)
    (hread2 : r2.ReadAllErr = none) (hclose2 : r2.CloseErr = none)
    (hdec1 : Unmarshal (r1.Body.take 1048576) = .ok h1)
    (hdec2 : Unmarshal (r2.Body.take 1048576) = .ok h2)
    (hsecret : h1.Secret = h2.Secret) :
    handlerForget db Unmarshal r1 s = handlerForget db Unmarshal r2 s ∧
    ∃ send,
      handlerForget db Unmarshal r1 s = .ok
        { w :=
            { contentType := some "application/json; charset=UTF-8"
              status := some 200
              body := [Encoded.string send] }
          db := (db.ForgetArbitration s h1.Secret).2
          calls := [Call.ForgetArbitration h1.Secret] } ∧
      (send = "\x7b\"heartbeat\":\"succed\"\x7d" ↔ (db.ForgetArbitration s h1.Secret).1 = none) ∧
      (send = "\x7b\"heartbeat\":\"failed\"\x7d" ↔ (db.ForgetArbitration s h1.Secret).1 ≠ none) := by
  have e1 := handlerForget_of_ok db Unmarshal r1 s h1 hread1 hclose1 hdec1
  have e2 := handlerForget_of_ok db Unmarshal r2 s h2 hread2 hclose2 hdec2
  refine ⟨by rw [e1, e2, hsecret], _, e1, ?_, ?_⟩
  · cases (db.ForgetArbitration s h1.Secret).1 with
    | none => simp
    | some e =>
      simp only [reduceCtorEq, iff_false]
      decide
  · cases (db.ForgetArbitration s h1.Secret).1 with
    | none =>
      simp only [ne_eq, not_true_eq_false, iff_false]
      decide
    | some e => simp

theorem handlerForget_depends_on_secret_witness :
    handlerForget Store.dbhelper
        (fun b => if b.length = 8 then .ok exampleMessage
          else .ok { exampleMessage with Cluster := "other", UID := 99 })
        exampleRequest exampleStore =
      handlerForget Store.dbhelper
        (fun b => if b.length = 8 then .ok exampleMessage
          else .ok { exampleMessage with Cluster := "other", UID := 99 })
        { exampleRequest with Body := [123, 125] } exampleStore :=
  (handlerForget_depends_on_secret Store.dbhelper
    (fun b => if b.length = 8 then .ok exampleMessage
      else .ok { exampleMessage with Cluster := "other", UID := 99 })
    exampleRequest { exampleRequest with Body := [123, 125] } exampleStore
    exampleMessage { exampleMessage with Cluster := "other", UID := 99 }
    rfl rfl rfl rfl (by decide) (by decide) rfl).1

/-- Only a request with the method "PST" is dispatched to `handlerForget`. -/
theorem newRouter_forget_only_PST (method path : String)
    (h : mux.Match newRouter method path = .handler .handlerForget) :
    method = "PST" ∧ path = "/forget/" := by
  simp only [mux.Match, newRouter, rs, List.find?_cons, List.find?_nil] at h
  split at h
  · exact absurd h (by simp)
  · rename_i r hr
    split at hr
    · simp only [Option.some.injEq] at hr
      subst hr
      split at h <;> simp at h
    · split at hr
      · simp only [Option.some.injEq] at hr
        subst hr
        split at h <;> simp at h
      · split at hr
        · rename_i hm
          simp only [Option.some.injEq] at hr
          subst hr
          simp only [mux.routeMatches, Bool.and_eq_true, decide_eq_true_eq] at hm
          refine ⟨?_, ?_⟩
          · rw [← hm.1]
            decide
          · split at h
            · assumption
            · simp at h
        · simp at hr

/-- C15, the failing path. The route table gives the route of `handlerForget` the
method "PST" and the pattern "/forget/": a POST or a DELETE to `/forget` (or to
`/forget/`) matches no route, and the only requests dispatched to `handlerForget`
are those with the method "PST". The two other routes dispatch POST. -/
theorem newRouter_forget_unreachable_by_post :
    mux.Match newRouter "POST" "/forget" = .noMatch ∧
    mux.Match newRouter "DELETE" "/forget" = .noMatch ∧
    mux.Match newRouter "POST" "/forget/" = .noMatch ∧
    mux.Match newRouter "DELETE" "/forget/" = .noMatch ∧
    mux.Match newRouter "PST" "/forget/" = .handler .handlerForget ∧
    mux.Match newRouter "POST" "/heartbeat" = .handler .handlerHeartbeat ∧
    mux.Match newRouter "POST" "/arbitrator" = .handler .handlerArbitrator ∧
    (∀ method path, mux.Match newRouter method path = .handler .handlerForget →
      method = "PST" ∧ path = "/forget/") := by
  refine ⟨by decide, by decide, by decide, by decide, by decide, by decide, by decide,
    newRouter_forget_only_PST⟩


/-! ## The store -/

theorem Claim.hasKey_self (c : Claim) : Claim.hasKey c.Secret c.Cluster c = true := by
  simp [Claim.hasKey]

theorem Store.incumbent_Upsert_self (s : List Claim) (c : Claim) :
    Store.incumbent (Store.Upsert s c) c.Secret c.Cluster = some c := by
  simp [Store.incumbent, Store.Upsert, Claim.hasKey_self]

theorem Store.filter_Upsert_self (s : List Claim) (c : Claim) :
    (Store.Upsert s c).filter (Claim.hasKey c.Secret c.Cluster) = [c] := by
  simp only [Store.Upsert, List.filter_cons, Claim.hasKey_self, if_true, List.filter_filter]
  simp

theorem Store.incumbent_Upsert_other (s : List Claim) (c : Claim) (secret cluster : String)
    (hne : ¬ (secret = c.Secret ∧ cluster = c.Cluster)) :
    Store.incumbent (Store.Upsert s c) secret cluster = Store.incumbent s secret cluster := by
  have hc : Claim.hasKey secret cluster c = false := by
    simp only [Claim.hasKey, Bool.and_eq_false_imp, decide_eq_true_eq, decide_eq_false_iff_not]
    intro h1 h2
    exact hne ⟨h1.symm, h2.symm⟩
  simp only [Store.incumbent, Store.Upsert, List.find?_cons, hc]
  induction s with
  | nil => rfl
  | cons d rest ih =>
    by_cases hd : Claim.hasKey c.Secret c.Cluster d = true
    · have hd2 : Claim.hasKey secret cluster d = false := by
        simp only [Claim.hasKey, Bool.and_eq_true, decide_eq_true_eq] at hd
        simp only [Claim.hasKey, Bool.and_eq_false_imp, decide_eq_true_eq,
          decide_eq_false_iff_not]
        intro h1 h2
        exact hne ⟨h1.symm.trans hd.1, h2.symm.trans hd.2⟩
      simp [List.filter_cons, hd, List.find?_cons, hd2, ih]
    · simp only [Bool.not_eq_true] at hd
      simp only [List.filter_cons, hd, Bool.not_false, if_true, List.find?_cons]
      cases Claim.hasKey secret cluster d with
      | true => rfl
      | false => exact ih

/-- C18. On the store modelled from the spec, `Decide` (the operation behind
`RequestArbitration`) returns won = true if and only if no incumbent exists for
the candidate's (Secret, Cluster) key, or the candidate's Hosts - Failed is
greater than the incumbent's, or the two are equal and the candidate's UID is
smaller. A winning candidate replaces the incumbent: it is then the one claim
stored under its key, and the incumbents of the other keys are as before. A
losing candidate leaves the store unchanged. -/
theorem Store_Decide_rule (s : List Claim) (c : Claim) :
    Store.dbhelper.RequestArbitration s c.UUID c.Secret c.Cluster c.Master c.UID c.Hosts
        c.Failed = Store.Decide s c ∧
    ((Store.Decide s c).1 = true ↔
      Store.incumbent s c.Secret c.Cluster = none ∨
        ∃ inc, Store.incumbent s c.Secret c.Cluster = some inc ∧
          (c.Hosts - c.Failed > inc.Hosts - inc.Failed ∨
            (c.Hosts - c.Failed = inc.Hosts - inc.Failed ∧ c.UID < inc.UID))) ∧
    ((Store.Decide s c).1 = true →
      Store.incumbent (Store.Decide s c).2 c.Secret c.Cluster = some c ∧
      (Store.Decide s c).2.filter (Claim.hasKey c.Secret c.Cluster) = [c] ∧
      ∀ secret cluster, ¬ (secret = c.Secret ∧ cluster = c.Cluster) →
        Store.incumbent (Store.Decide s c).2 secret cluster =
          Store.incumbent s secret cluster) ∧
    ((Store.Decide s c).1 = false → (Store.Decide s c).2 = s) := by
  refine ⟨rfl, ?_, ?_, ?_⟩
  · cases hinc : Store.incumbent s c.Secret c.Cluster with
    | none => simp [Store.Decide, hinc]
    | some inc =>
      by_cases hw : c.alive > inc.alive ∨ (c.alive = inc.alive ∧ c.UID < inc.UID)
      · simp only [Store.Decide, hinc, hw, if_true, true_iff]
        exact Or.inr ⟨inc, rfl, hw⟩
      · simp only [Store.Decide, hinc, hw, if_false, Bool.false_eq_true, false_iff]
        rintro (h | ⟨inc2, h2, hw2⟩)
        · simp at h
        · simp only [Option.some.injEq] at h2
          subst h2
          exact hw hw2
  · intro hwon
    have hstore : (Store.Decide s c).2 = Store.Upsert s c := by
      cases hinc : Store.incumbent s c.Secret c.Cluster with
      | none => simp [Store.Decide, hinc]
      | some inc =>
        by_cases hw : c.alive > inc.alive ∨ (c.alive = inc.alive ∧ c.UID < inc.UID)
        · simp [Store.Decide, hinc, hw]
        · simp [Store.Decide, hinc, hw] at hwon
    rw [hstore]
    exact ⟨Store.incumbent_Upsert_self s c, Store.filter_Upsert_self s c,
      fun secret cluster hne => Store.incumbent_Upsert_other s c secret cluster hne⟩
  · intro hlost
    cases hinc : Store.incumbent s c.Secret c.Cluster with
    | none => simp [Store.Decide, hinc] at hlost
    | some inc =>
      by_cases hw : c.alive > inc.alive ∨ (c.alive = inc.alive ∧ c.UID < inc.UID)
      · simp [Store.Decide, hinc, hw] at hlost
      · simp [Store.Decide, hinc, hw]

theorem Store_Decide_rule_witness :
    (Store.Decide exampleStore exampleMessage.claim).1 = true ∧
    Store.incumbent (Store.Decide exampleStore exampleMessage.claim).2 "s3cret" "c1" =
      some exampleMessage.claim ∧
    (Store.Decide exampleStore { exampleMessage.claim with Failed := 3 }).2 = exampleStore :=
  ⟨(Store_Decide_rule exampleStore exampleMessage.claim).2.1.mpr
      (Or.inr ⟨_, rfl, Or.inl (by decide)⟩),
   ((Store_Decide_rule exampleStore exampleMessage.claim).2.2.1 (by decide)).1,
   (Store_Decide_rule exampleStore { exampleMessage.claim with Failed := 3 }).2.2.2
      (by decide)⟩


/-! ## The configuration guards -/

/-- C12, as stated, fails: an instance that is configured as the witness and has
arbitration enabled still has it enabled after a tick, which changed nothing. -/
theorem fHeartbeat_self_witness_keeps_arbitration :
    exampleWitnessState.cfgGroup = "arbitrator" ∧
    exampleWitnessState.conf.Arbitration = true ∧
    (fHeartbeat (exampleWorld true .doError) exampleWitnessState).conf.Arbitration = true ∧
    (tick (exampleWorld true .doError) exampleWitnessState).conf.Arbitration = true ∧
    tick (exampleWorld true .doError) exampleWitnessState = exampleWitnessState := by
  refine ⟨by decide, by decide, by decide, by decide, by decide⟩

/-- C12, amended. When no sibling peer address is configured and this process is
not the witness, a tick of `fHeartbeat` leaves the arbitration-enabled flag
false, so that every later tick does nothing; when this process is configured as
the witness, the tick returns at once and leaves the flag as it was. In both
cases the tick makes no outgoing call and changes neither `splitBrain` nor
`runStatus` nor the clusters. -/
theorem fHeartbeat_configuration_guards (w : World) (st : State)
    (hcase : st.cfgGroup = "arbitrator" ∨ st.conf.ArbitrationPeerHosts = "") :
    (st.cfgGroup = "arbitrator" → fHeartbeat w st = st) ∧
    (st.cfgGroup ≠ "arbitrator" →
      (fHeartbeat w st).conf.Arbitration = false ∧
      ∀ w2, tick w2 (fHeartbeat w st) = fHeartbeat w st) ∧
    (fHeartbeat w st).splitBrain = st.splitBrain ∧
    (fHeartbeat w st).runStatus = st.runStatus ∧
    (fHeartbeat w st).clusters = st.clusters ∧
    callsOf w st = [] := by
  by_cases hcfg : st.cfgGroup = "arbitrator"
  · have hfin : fHeartbeat w st = st := by simp [fHeartbeat, hcfg]
    refine ⟨fun _ => hfin, fun h => absurd hcfg h, ?_, ?_, ?_, ?_⟩
    · rw [hfin]
    · rw [hfin]
    · rw [hfin]
    · simp [callsOf, hfin]
  · have hpeers : st.conf.ArbitrationPeerHosts = "" := hcase.resolve_left hcfg
    have hfin : fHeartbeat w st = { st with conf := { st.conf with Arbitration := false } } := by
      simp [fHeartbeat, hcfg, hpeers]
    refine ⟨fun h => absurd h hcfg, fun _ => ⟨by rw [hfin], fun w2 => ?_⟩, ?_, ?_, ?_, ?_⟩
    · rw [hfin]
      simp [tick]
    · rw [hfin]
    · rw [hfin]
    · rw [hfin]
    · simp [callsOf, hfin]

theorem fHeartbeat_configuration_guards_witness :
    (fHeartbeat (exampleWorld true .doError) (exampleState "" true)).conf.Arbitration = false ∧
    (fHeartbeat (exampleWorld true .doError) (exampleState "" true)).runStatus = "S" ∧
    callsOf (exampleWorld true .doError) (exampleState "" true) = [] :=
  have h := fHeartbeat_configuration_guards (exampleWorld true .doError) (exampleState "" true)
    (Or.inr rfl)
  ⟨(h.2.1 (by decide)).1, h.2.2.2.1, h.2.2.2.2.2⟩


/-! ## Requests to the witness -/

theorem heartbeatURL_ne_arbitratorURL (st : State) : heartbeatURL st ≠ arbitratorURL st := by
  intro e
  have e2 := congrArg String.data e
  simp only [heartbeatURL, arbitratorURL, String.data_append, List.append_assoc,
    List.append_cancel_left_eq] at e2
  revert e2
  decide

theorem probeEvents_filter_isPostTo (url : String) (peers : List String)
    (o : Nat → PeerOutcome) : (probeEvents peers o).filter (Event.isPostTo url) = [] := by
  rw [List.filter_eq_nil_iff]
  intro e he
  obtain ⟨u, rfl⟩ := probeEvents_all_get peers o e he
  simp [Event.isPostTo]

theorem reportEvents_filter_arbitrator (st : State) (cs : List Cluster) (ok : Nat → Bool) :
    (reportEvents st cs ok).filter (Event.isPostTo (arbitratorURL st)) = [] := by
  have hne : ¬ ("http://" ++ st.conf.ArbitrationSasHosts ++ "/heartbeat" = arbitratorURL st) :=
    heartbeatURL_ne_arbitratorURL st
  induction cs generalizing ok with
  | nil => rfl
  | cons cl rest ih =>
    cases h0 : ok 0 with
    | false => simp [reportEvents, h0, Event.isPostTo, hne]
    | true => simp [reportEvents, h0, Event.isPostTo, hne, ih]

theorem preludeEvents_filter_arbitrator (w : World) (st : State) :
    (preludeEvents w st).filter (Event.isPostTo (arbitratorURL st)) = [] := by
  rw [List.filter_eq_nil_iff]
  intro e he
  rcases preludeEvents_shape w st e he with ⟨u, rfl⟩ | ⟨b, rfl⟩ | rfl
  · simp [Event.isPostTo]
  · simp [Event.isPostTo, heartbeatURL_ne_arbitratorURL st]
  · simp [Event.isPostTo]

theorem preludeEvents_filter_heartbeat (w : World) (st : State) :
    (preludeEvents w st).filter (Event.isPostTo (heartbeatURL st)) =
      (w.rangeReport st.clusters).map
        (fun cl => Event.httpPost (heartbeatURL st) (jsonStr st cl)) := by
  have hmap : ∀ cs : List Cluster,
      (cs.map (fun cl => Event.httpPost (heartbeatURL st) (jsonStr st cl))).filter
        (Event.isPostTo (heartbeatURL st)) =
      cs.map (fun cl => Event.httpPost (heartbeatURL st) (jsonStr st cl)) := by
    intro cs
    rw [List.filter_eq_self]
    intro e he
    obtain ⟨cl, _, rfl⟩ := List.mem_map.mp he
    simp [Event.isPostTo]
  simp only [preludeEvents, List.filter_append, probeEvents_filter_isPostTo, hmap,
    List.nil_append]
  cases st.splitBrain <;> simp [Event.isPostTo]

/-- The calls of the arbitration loop on a non-empty range: one POST to
`/arbitrator` for the first cluster, then calls on that cluster only. -/
theorem arbitrationLoop_trace (nr : String → Bool) (bck : Bool) (cl : Cluster)
    (rest : List Cluster) (o : ArbitratorOutcome) (st : State)
    (hnr : nr (arbitratorURL st) = true) :
    ∃ tail, (arbitrationLoop nr bck (cl :: rest) o st).trace =
        st.trace ++ (Event.httpPost (arbitratorURL st) (jsonStr st cl) :: tail) ∧
      ∀ e ∈ tail, e = Event.SetActiveStatus cl.name "S" ∨ e = Event.SetActiveStatus cl.name "A" ∨
        e = Event.SetMasterReadOnly cl.name := by
  cases o with
  | doError =>
    rw [arbitrationLoop_failure nr bck cl rest _ st hnr (Or.inl rfl)]
    exact ⟨_, rfl, by simp⟩
  | invalidJSON =>
    rw [arbitrationLoop_failure nr bck cl rest _ st hnr (Or.inr rfl)]
    exact ⟨_, rfl, by simp⟩
  | parsed r =>
    by_cases hw : r.Arbitration = "winner"
    · rw [arbitrationLoop_winner nr bck cl rest r st hnr hw]
      exact ⟨_, rfl, by simp⟩
    · rw [arbitrationLoop_looser nr bck cl rest r st hnr hw]
      refine ⟨(if (bck != st.splitBrain) = true ∧ r.Master ≠ cl.mst then
          [Event.SetMasterReadOnly cl.name] else []) ++ [Event.SetActiveStatus cl.name "S"],
        by simp, ?_⟩
      intro e he
      by_cases hc : (bck != st.splitBrain) = true ∧ r.Master ≠ cl.mst
      · rw [if_pos hc] at he
        simp only [List.singleton_append, List.mem_cons, List.mem_singleton,
          List.not_mem_nil, or_false] at he
        rcases he with rfl | rfl
        · exact Or.inr (Or.inr rfl)
        · exact Or.inl rfl
      · rw [if_neg hc] at he
        simp only [List.nil_append, List.mem_singleton] at he
        exact Or.inl he


/-- C11, as stated, fails: with two managed clusters and a witness that answers,
one escalating tick registers both clusters on `/heartbeat` (with different
bodies) before it requests the verdict for the first. -/
theorem fHeartbeat_registers_every_cluster :
    Escalates (exampleWorld true (.parsed ⟨"winner", "db1:3306"⟩)) exampleStateTwoClusters ∧
    callsOf (exampleWorld true (.parsed ⟨"winner", "db1:3306"⟩)) exampleStateTwoClusters =
      [Event.httpGet "http://10.0.0.2:10001/heartbeat",
       Event.httpPost "http://10.0.0.9:8080/heartbeat"
         (jsonStr exampleStateTwoClusters exampleCluster),
       Event.httpPost "http://10.0.0.9:8080/heartbeat"
         (jsonStr exampleStateTwoClusters exampleCluster2),
       Event.Sleep 5,
       Event.httpPost "http://10.0.0.9:8080/arbitrator"
         (jsonStr exampleStateTwoClusters exampleCluster),
       Event.SetActiveStatus "c1" "A"] ∧
    jsonStr exampleStateTwoClusters exampleCluster ≠
      jsonStr exampleStateTwoClusters exampleCluster2 :=
  ⟨⟨⟨by decide, by decide⟩, by decide⟩, by decide, by decide⟩

/-- The POSTs to `/heartbeat` among the calls of the report loop: one per visited
cluster. -/
theorem reportEvents_filter_heartbeat (st : State) (cs : List Cluster) (ok : Nat → Bool) :
    (reportEvents st cs ok).filter (Event.isPostTo (heartbeatURL st)) =
      (reportedClusters cs ok).map
        (fun cl => Event.httpPost (heartbeatURL st) (jsonStr st cl)) := by
  have hurl : "http://" ++ st.conf.ArbitrationSasHosts ++ "/heartbeat" = heartbeatURL st := rfl
  induction cs generalizing ok with
  | nil => rfl
  | cons cl rest ih =>
    cases h0 : ok 0 with
    | false => simp [reportEvents, reportedClusters, h0, Event.isPostTo, hurl]
    | true => simp [reportEvents, reportedClusters, h0, Event.isPostTo, hurl, ih]

/-- When every registration gets a response, the report loop visits every
cluster of its range. -/
theorem reportedClusters_of_allReported (cs : List Cluster) (ok : Nat → Bool)
    (h : allReported cs ok = true) : reportedClusters cs ok = cs := by
  induction cs generalizing ok with
  | nil => rfl
  | cons cl rest ih =>
    simp only [allReported, Bool.and_eq_true] at h
    simp [reportedClusters, h.1, ih _ h.2]

/-- When some registration fails, the report loop visits the clusters of its
range up to and including the first one whose registration fails. -/
theorem reportedClusters_of_not_allReported (cs : List Cluster) (ok : Nat → Bool)
    (h : allReported cs ok = false) :
    ∃ k, k < cs.length ∧ ok k = false ∧ (∀ i, i < k → ok i = true) ∧
      reportedClusters cs ok = cs.take (k + 1) := by
  induction cs generalizing ok with
  | nil => simp [allReported] at h
  | cons cl rest ih =>
    cases h0 : ok 0 with
    | false =>
      exact ⟨0, by simp, h0, fun i hi => absurd hi (Nat.not_lt_zero i),
        by simp [reportedClusters, h0]⟩
    | true =>
      simp only [allReported, h0, Bool.true_and] at h
      obtain ⟨k, hk, hfail, hbefore, htake⟩ := ih _ h
      refine ⟨k + 1, by simp only [List.length_cons]; omega, hfail, ?_, ?_⟩
      · intro i hi
        cases i with
        | zero => exact h0
        | succ j => exact hbefore j (by omega)
      · simp [reportedClusters, h0, htake]

/-- The requests of the arbitration loop: none, or one POST to `/arbitrator`, for
the first cluster of the range. -/
theorem arbitrationLoop_requests (nr : String → Bool) (bck : Bool) (cs : List Cluster)
    (o : ArbitratorOutcome) (st : State) :
    ∃ l, (arbitrationLoop nr bck cs o st).trace = st.trace ++ l ∧
      l.filter (Event.isPostTo (heartbeatURL st)) = [] ∧
      (l.filter (Event.isPostTo (arbitratorURL st)) = [] ∨
        ∃ cl rest, cs = cl :: rest ∧
          l.filter (Event.isPostTo (arbitratorURL st)) =
            [Event.httpPost (arbitratorURL st) (jsonStr st cl)]) := by
  cases cs with
  | nil => exact ⟨[], by simp [arbitrationLoop], rfl, Or.inl rfl⟩
  | cons cl rest =>
    cases hnr : nr (arbitratorURL st) with
    | false =>
      have hnr2 : nr ("http://" ++ st.conf.ArbitrationSasHosts ++ "/arbitrator") = false := hnr
      exact ⟨[], by simp [arbitrationLoop, hnr2], rfl, Or.inl rfl⟩
    | true =>
      obtain ⟨tail, htr, htail⟩ := arbitrationLoop_trace nr bck cl rest o st hnr
      have htailf : ∀ url, tail.filter (Event.isPostTo url) = [] := by
        intro url
        rw [List.filter_eq_nil_iff]
        intro e he
        rcases htail e he with rfl | rfl | rfl <;> simp [Event.isPostTo]
      have hne : ¬ (arbitratorURL st = heartbeatURL st) :=
        fun e => heartbeatURL_ne_arbitratorURL st e.symm
      refine ⟨_, htr, ?_, Or.inr ⟨cl, rest, rfl, ?_⟩⟩
      · simp [List.filter_cons, Event.isPostTo, htailf, hne]
      · simp [List.filter_cons, Event.isPostTo, htailf]

/-- The requests of a tick after the report loop fell through: the optional
sleep, then the arbitration loop. -/
theorem afterReport_requests (w : World) (bck : Bool) (s2 : State) :
    ∃ l,
      (arbitrationLoop w.newRequest bck
        (w.rangeArbitration
          (if (bck != s2.splitBrain) = true then s2.emit (Event.Sleep 5) else s2).clusters)
        w.arbitrator
        (if (bck != s2.splitBrain) = true then s2.emit (Event.Sleep 5) else s2)).trace =
        s2.trace ++ l ∧
      l.filter (Event.isPostTo (heartbeatURL s2)) = [] ∧
      (l.filter (Event.isPostTo (arbitratorURL s2)) = [] ∨
        ∃ cl rest, w.rangeArbitration s2.clusters = cl :: rest ∧
          l.filter (Event.isPostTo (arbitratorURL s2)) =
            [Event.httpPost (arbitratorURL s2) (jsonStr s2 cl)]) := by
  by_cases hc : (bck != s2.splitBrain) = true
  · simp only [hc, if_true]
    obtain ⟨l2, hl2, hhb, harb⟩ := arbitrationLoop_requests w.newRequest bck
      (w.rangeArbitration (s2.emit (Event.Sleep 5)).clusters) w.arbitrator
      (s2.emit (Event.Sleep 5))
    refine ⟨Event.Sleep 5 :: l2, ?_, ?_, ?_⟩
    · rw [hl2]
      simp [State.emit]
    · rw [List.filter_cons]
      simpa [Event.isPostTo] using hhb
    · rcases harb with h0 | ⟨cl, rest, hcs, h1⟩
      · refine Or.inl ?_
        rw [List.filter_cons]
        simpa [Event.isPostTo] using h0
      · refine Or.inr ⟨cl, rest, hcs, ?_⟩
        rw [List.filter_cons]
        simpa [Event.isPostTo] using h1
  · simp only [hc, Bool.false_eq_true, if_false]
    exact arbitrationLoop_requests w.newRequest bck (w.rangeArbitration s2.clusters)
      w.arbitrator s2


/-! ## The request body -/

theorem append_sep_cancel {q : Char} : ∀ (a b x y : List Char), q ∉ a → q ∉ b →
    a ++ q :: x = b ++ q :: y → a = b ∧ x = y
  | [], [], x, y, _, _, h => by simpa using h
  | [], c :: b, x, y, _, hb, h => by
    simp only [List.nil_append, List.cons_append, List.cons.injEq] at h
    exact absurd (by rw [← h.1]; exact List.mem_cons_self _ _) hb
  | c :: a, [], x, y, ha, _, h => by
    simp only [List.nil_append, List.cons_append, List.cons.injEq] at h
    exact absurd (by rw [h.1]; exact List.mem_cons_self _ _) ha
  | c :: a, d :: b, x, y, ha, hb, h => by
    simp only [List.cons_append, List.cons.injEq] at h
    have := append_sep_cancel a b x y (fun hm => ha (List.mem_cons_of_mem _ hm))
      (fun hm => hb (List.mem_cons_of_mem _ hm)) h.2
    exact ⟨by rw [h.1, this.1], this.2⟩

/-- The characters of a concatenation of ten strings. -/
theorem chain_data (a u b s c n d m e t : String) :
    (a ++ (u ++ (b ++ (s ++ (c ++ (n ++ (d ++ (m ++ (e ++ t))))))))).data =
      a.data ++ (u.data ++ (b.data ++ (s.data ++ (c.data ++ (n.data ++ (d.data ++
        (m.data ++ (e.data ++ t.data)))))))) := by
  simp only [String.data_append]

/-- The request body with its concatenations associated to the right. -/
theorem jsonStr_assoc (st : State) (cl : Cluster) :
    jsonStr st cl =
      "\x7b\"uuid\":\"" ++ (st.runUUID ++ ("\",\"secret\":\"" ++
        (st.conf.ArbitrationSasSecret ++ ("\",\"cluster\":\"" ++ (cl.name ++
          ("\",\"master\":\"" ++ (cl.mst ++ ("\",\"id\":" ++
            (strconv.Itoa st.conf.ArbitrationSasUniqueId ++ (",\"status\":\"" ++
              (st.runStatus ++ ("\",\"hosts\":" ++ (strconv.Itoa (cl.servers : Int) ++
                (",\"failed\":" ++ (strconv.Itoa cl.failed ++ "\x7d"))))))))))))))) := by
  simp only [jsonStr, Cluster.mst, String.append_assoc]

/-- The characters of the request body after the run id: the three fields, each
followed by a separator that begins with a double quote. -/
theorem jsonStr_data (st : State) (cl : Cluster) :
    ∃ t : List Char, (jsonStr st cl).data =
      ("\x7b\"uuid\":\"" : String).data ++ (st.runUUID.data ++
        (("\",\"secret\":\"" : String).data ++
          (st.conf.ArbitrationSasSecret.data ++ quote :: ((",\"cluster\":\"" : String).data ++
            (cl.name.data ++ quote :: ((",\"master\":\"" : String).data ++
              (cl.mst.data ++ quote :: t))))))) := by
  have h3 : ("\",\"cluster\":\"" : String).data = quote :: (",\"cluster\":\"" : String).data := by
    decide
  have h4 : ("\",\"master\":\"" : String).data = quote :: (",\"master\":\"" : String).data := by
    decide
  have h5 : ("\",\"id\":" : String).data = quote :: (",\"id\":" : String).data := by
    decide
  refine ⟨(",\"id\":" : String).data ++
    (strconv.Itoa st.conf.ArbitrationSasUniqueId ++ (",\"status\":\"" ++
      (st.runStatus ++ ("\",\"hosts\":" ++ (strconv.Itoa (cl.servers : Int) ++
        (",\"failed\":" ++ (strconv.Itoa cl.failed ++ "\x7d"))))))).data, ?_⟩
  rw [jsonStr_assoc, chain_data, h3, h4, h5]
  rfl

/-- C20, as stated, fails: the secret `a","cluster":"b` with the cluster name `c`
and the secret `a` with the cluster name `b","cluster":"c` differ, all other
fields being the same, and give the same request body. -/
theorem jsonStr_not_injective :
    jsonStr exampleQuotedState examplePlainCluster =
      jsonStr examplePlainState exampleQuotedCluster ∧
    exampleQuotedState.conf.ArbitrationSasSecret ≠ examplePlainState.conf.ArbitrationSasSecret ∧
    examplePlainCluster.name ≠ exampleQuotedCluster.name ∧
    exampleQuotedState.runUUID = examplePlainState.runUUID ∧
    exampleQuotedState.conf.ArbitrationSasUniqueId =
      examplePlainState.conf.ArbitrationSasUniqueId ∧
    exampleQuotedState.runStatus = examplePlainState.runStatus ∧
    examplePlainCluster.servers = exampleQuotedCluster.servers ∧
    examplePlainCluster.failed = exampleQuotedCluster.failed ∧
    examplePlainCluster.mst = exampleQuotedCluster.mst := by
  refine ⟨by decide, by decide, by decide, rfl, rfl, rfl, rfl, rfl, rfl⟩

/-- C20, amended. For a fixed run id, the request body that `fHeartbeat` builds for
the witness is an injective function of the triple (secret, cluster name, master
address) on the triples whose three components contain no double quote: two
such triples with the same body are equal, whatever the unique id, the status
and the two counts are. -/
theorem jsonStr_injective_of_quoteFree (st1 st2 : State) (cl1 cl2 : Cluster)
    (huuid : st1.runUUID = st2.runUUID)
    (hs1 : QuoteFree st1.conf.ArbitrationSasSecret)
    (hs2 : QuoteFree st2.conf.ArbitrationSasSecret)
    (hn1 : QuoteFree cl1.name) (hn2 : QuoteFree cl2.name)
    (hm1 : QuoteFree cl1.mst) (hm2 : QuoteFree cl2.mst)
    (hbody : jsonStr st1 cl1 = jsonStr st2 cl2) :
    st1.conf.ArbitrationSasSecret = st2.conf.ArbitrationSasSecret ∧ cl1.name = cl2.name ∧
      cl1.mst = cl2.mst := by
  obtain ⟨t1, hd1⟩ := jsonStr_data st1 cl1
  obtain ⟨t2, hd2⟩ := jsonStr_data st2 cl2
  have e : (jsonStr st1 cl1).data = (jsonStr st2 cl2).data := congrArg String.data hbody
  rw [hd1, hd2, huuid] at e
  have e0 := List.append_cancel_left (List.append_cancel_left (List.append_cancel_left e))
  obtain ⟨e1, e⟩ := append_sep_cancel _ _ _ _ hs1 hs2 e0
  obtain ⟨e2, e⟩ := append_sep_cancel _ _ _ _ hn1 hn2 (List.append_cancel_left e)
  obtain ⟨e3, _⟩ := append_sep_cancel _ _ _ _ hm1 hm2 (List.append_cancel_left e)
  exact ⟨String.ext e1, String.ext e2, String.ext e3⟩

theorem jsonStr_injective_of_quoteFree_witness :
    jsonStr (exampleState "10.0.0.2:10001" false) exampleCluster =
        jsonStr (exampleState "10.0.0.3:10001" true) exampleCluster ∧
    exampleCluster.name = exampleCluster.name :=
  ⟨by decide,
   (jsonStr_injective_of_quoteFree (exampleState "10.0.0.2:10001" false)
      (exampleState "10.0.0.3:10001" true) exampleCluster exampleCluster rfl
      (by decide) (by decide) (by decide) (by decide) (by decide) (by decide) (by decide)).2.1⟩


/-! ## Roles after a tick -/

/-- C21. A peer response that parses and whose status is anything but "S" (an
empty status included) makes the peer loop clear `splitBrain` and set
`runStatus` to Standby. Hence a tick in which a peer response parses ends with
`splitBrain` false and `runStatus` "A" or "S"; `runStatus` is Standby unless the
last parsed response reports "S", and it differs from the status of the last
parsed response whenever that status is "A" or "S". -/
theorem fHeartbeat_role_against_last_response (w : World) (st : State) (h : heartbeat)
    (hreach : ReachesProbe st)
    (hlast : (parsedResponses (strings.Split st.conf.ArbitrationPeerHosts) w.peer).getLast?
      = some h) :
    (∀ (peer : String) (h2 : heartbeat) (st2 : State), h2.Status ≠ "S" →
      (probeStep peer (.response (some h2)) st2).splitBrain = false ∧
      (probeStep peer (.response (some h2)) st2).runStatus = "S") ∧
    (fHeartbeat w st).splitBrain = false ∧
    ((fHeartbeat w st).runStatus = "A" ∨ (fHeartbeat w st).runStatus = "S") ∧
    (h.Status ≠ "S" → (fHeartbeat w st).runStatus = "S") ∧
    (h.Status = "S" → (fHeartbeat w st).runStatus = "A") ∧
    (h.Status = "A" ∨ h.Status = "S" → (fHeartbeat w st).runStatus ≠ h.Status) := by
  have hne : parsedResponses (strings.Split st.conf.ArbitrationPeerHosts) w.peer ≠ [] := by
    intro hnil
    rw [hnil] at hlast
    simp at hlast
  have hfin := fHeartbeat_of_parsed w st hreach hne
  rw [probePhase_eq, hlast] at hfin
  have hrs : (fHeartbeat w st).runStatus = roleAgainst h := by rw [hfin]
  have hAS : ("A" : String) ≠ "S" := by decide
  refine ⟨?_, by rw [hfin], ?_, ?_, ?_, ?_⟩
  · intro peer h2 st2 hs
    simp [probeStep, hs]
  · rw [hrs, roleAgainst]
    by_cases hs : h.Status = "S"
    · exact Or.inl (by simp [hs])
    · exact Or.inr (by simp [hs])
  · intro hs
    rw [hrs, roleAgainst]
    simp [hs]
  · intro hs
    rw [hrs, roleAgainst]
    simp [hs]
  · intro hs
    rw [hrs, roleAgainst]
    rcases hs with hs | hs
    · rw [hs]
      simp only [hAS, if_false]
      exact fun e => hAS e.symm
    · rw [hs]
      simp only [if_true]
      exact hAS

theorem fHeartbeat_role_against_last_response_witness :
    (fHeartbeat exampleWorldEmptyStatus (exampleState "10.0.0.2:10001" true)).splitBrain
      = false ∧
    (fHeartbeat exampleWorldEmptyStatus (exampleState "10.0.0.2:10001" true)).runStatus = "S" :=
  have h := fHeartbeat_role_against_last_response exampleWorldEmptyStatus
    (exampleState "10.0.0.2:10001" true) (exampleReply "") ⟨by decide, by decide⟩ (by decide)
  ⟨h.2.1, h.2.2.2.1 (by decide)⟩


theorem StatusCalls_append (pre l : List Event) (rs : String)
    (hpre : pre.filter Event.isSetActiveStatus = []) (hl : StatusCalls l rs) :
    StatusCalls (pre ++ l) rs := by
  rcases hl with h0 | ⟨c, h1⟩
  · exact Or.inl (by rw [List.filter_append, hpre, h0]; rfl)
  · exact Or.inr ⟨c, by rw [List.filter_append, hpre, h1]; rfl⟩

/-- The report loop falls through without any `SetActiveStatus`. -/
theorem reportLoop_calls_fallThrough (nr : String → Bool) (cs : List Cluster)
    (ok : Nat → Bool) (st s2 : State) (h : reportLoop nr cs ok st = .fallThrough s2) :
    ∃ l, s2.trace = st.trace ++ l ∧ l.filter Event.isSetActiveStatus = [] := by
  induction cs generalizing ok st with
  | nil =>
    simp only [reportLoop, Control.fallThrough.injEq] at h
    exact ⟨[], by rw [← h]; simp, rfl⟩
  | cons cl rest ih =>
    simp only [reportLoop] at h
    split at h
    · split at h
      · obtain ⟨l, hl, hf⟩ := ih _ _ h
        refine ⟨Event.httpPost ("http://" ++ st.conf.ArbitrationSasHosts ++ "/heartbeat")
          (jsonStr st cl) :: l, ?_, ?_⟩
        · rw [hl]
          simp [State.emit]
        · simp [List.filter_cons, Event.isSetActiveStatus, hf]
      · exact Control.noConfusion h
    · exact Control.noConfusion h

/-- When the report loop returns, it has called `SetActiveStatus` not at all (it
panicked) or once, with the role it gave `runStatus`. -/
theorem reportLoop_calls_returned (nr : String → Bool) (cs : List Cluster)
    (ok : Nat → Bool) (st s2 : State) (h : reportLoop nr cs ok st = .returned s2) :
    ∃ l, s2.trace = st.trace ++ l ∧ StatusCalls l s2.runStatus := by
  induction cs generalizing ok st with
  | nil => simp [reportLoop] at h
  | cons cl rest ih =>
    simp only [reportLoop] at h
    split at h
    · split at h
      · obtain ⟨l, hl, hf⟩ := ih _ _ h
        refine ⟨Event.httpPost ("http://" ++ st.conf.ArbitrationSasHosts ++ "/heartbeat")
          (jsonStr st cl) :: l, ?_, ?_⟩
        · rw [hl]
          simp [State.emit]
        · exact StatusCalls_append [_] l _ (by simp [List.filter_cons, Event.isSetActiveStatus])
            hf
      · simp only [Control.returned.injEq] at h
        refine ⟨[Event.httpPost ("http://" ++ st.conf.ArbitrationSasHosts ++ "/heartbeat")
          (jsonStr st cl), Event.SetActiveStatus cl.name "S"], ?_, Or.inr ⟨cl.name, ?_⟩⟩
        · rw [← h]
          simp [State.emit]
        · rw [← h]
          simp [List.filter_cons, Event.isSetActiveStatus]
    · simp only [Control.returned.injEq] at h
      exact ⟨[], by rw [← h]; simp, Or.inl rfl⟩

/-- The arbitration loop calls `SetActiveStatus` not at all (empty range or
panic) or once, with the role it gives `runStatus`. -/
theorem arbitrationLoop_calls (nr : String → Bool) (bck : Bool) (cs : List Cluster)
    (o : ArbitratorOutcome) (st : State) :
    ∃ l, (arbitrationLoop nr bck cs o st).trace = st.trace ++ l ∧
      StatusCalls l (arbitrationLoop nr bck cs o st).runStatus := by
  cases cs with
  | nil => exact ⟨[], by simp [arbitrationLoop], Or.inl rfl⟩
  | cons cl rest =>
    cases hnr : nr (arbitratorURL st) with
    | false =>
      have hnr2 : nr ("http://" ++ st.conf.ArbitrationSasHosts ++ "/arbitrator") = false := hnr
      exact ⟨[], by simp [arbitrationLoop, hnr2], Or.inl rfl⟩
    | true =>
      cases o with
      | doError =>
        rw [arbitrationLoop_failure nr bck cl rest _ st hnr (Or.inl rfl)]
        exact ⟨_, rfl, Or.inr ⟨cl.name, by simp [List.filter_cons, Event.isSetActiveStatus]⟩⟩
      | invalidJSON =>
        rw [arbitrationLoop_failure nr bck cl rest _ st hnr (Or.inr rfl)]
        exact ⟨_, rfl, Or.inr ⟨cl.name, by simp [List.filter_cons, Event.isSetActiveStatus]⟩⟩
      | parsed r =>
        by_cases hw : r.Arbitration = "winner"
        · rw [arbitrationLoop_winner nr bck cl rest r st hnr hw]
          exact ⟨_, rfl, Or.inr ⟨cl.name, by simp [List.filter_cons, Event.isSetActiveStatus]⟩⟩
        · rw [arbitrationLoop_looser nr bck cl rest r st hnr hw]
          refine ⟨_, rfl, Or.inr ⟨cl.name, ?_⟩⟩
          by_cases hc : (bck != st.splitBrain) = true ∧ r.Master ≠ cl.mst
          · rw [if_pos hc]
            simp [List.filter_cons, Event.isSetActiveStatus]
          · rw [if_neg hc]
            simp [List.filter_cons, Event.isSetActiveStatus]


theorem probeEvents_filter_isSetActiveStatus (peers : List String) (o : Nat → PeerOutcome) :
    (probeEvents peers o).filter Event.isSetActiveStatus = [] := by
  rw [List.filter_eq_nil_iff]
  intro e he
  obtain ⟨u, rfl⟩ := probeEvents_all_get peers o e he
  simp [Event.isSetActiveStatus]

/-- The escalation phase calls `SetActiveStatus` at most once, with the role it
gives `runStatus`. -/
theorem escalationPhase_calls (w : World) (bck : Bool) (st : State) :
    ∃ l, (escalationPhase w bck st).trace = st.trace ++ l ∧
      StatusCalls l (escalationPhase w bck st).runStatus := by
  unfold escalationPhase
  cases hR : reportLoop w.newRequest (w.rangeReport st.clusters) w.heartbeat st with
  | returned s2 => exact reportLoop_calls_returned _ _ _ _ _ hR
  | fallThrough s2 =>
    obtain ⟨l1, hl1, hf1⟩ := reportLoop_calls_fallThrough _ _ _ _ _ hR
    simp only
    by_cases hc : (bck != s2.splitBrain) = true
    · simp only [hc, if_true]
      obtain ⟨l2, hl2, hs2⟩ := arbitrationLoop_calls w.newRequest bck
        (w.rangeArbitration (s2.emit (Event.Sleep 5)).clusters) w.arbitrator
        (s2.emit (Event.Sleep 5))
      refine ⟨l1 ++ [Event.Sleep 5] ++ l2, ?_, ?_⟩
      · rw [hl2]
        simp [State.emit, hl1]
      · refine StatusCalls_append _ _ _ ?_ hs2
        rw [List.filter_append, hf1]
        rfl
    · simp only [hc, Bool.false_eq_true, if_false]
      obtain ⟨l2, hl2, hs2⟩ := arbitrationLoop_calls w.newRequest bck
        (w.rangeArbitration s2.clusters) w.arbitrator s2
      refine ⟨l1 ++ l2, ?_, StatusCalls_append _ _ _ hf1 hs2⟩
      rw [hl2, hl1, List.append_assoc]

/-- Every tick calls `SetActiveStatus` at most once, with the role it gives
`runStatus`. -/
theorem fHeartbeat_calls (w : World) (st : State) :
    StatusCalls (callsOf w st) (fHeartbeat w st).runStatus := by
  have key : ∃ l, (fHeartbeat w st).trace = st.trace ++ l ∧
      StatusCalls l (fHeartbeat w st).runStatus := by
    by_cases hcfg : st.cfgGroup = "arbitrator"
    · exact ⟨[], by simp [fHeartbeat, hcfg], Or.inl rfl⟩
    · by_cases hpeers : st.conf.ArbitrationPeerHosts = ""
      · exact ⟨[], by simp [fHeartbeat, hcfg, hpeers], Or.inl rfl⟩
      · rw [fHeartbeat_of_reachesProbe w st ⟨hcfg, hpeers⟩]
        have hp := probePhase_eq w (strings.Split st.conf.ArbitrationPeerHosts) st
        have htr : (probePhase w (strings.Split st.conf.ArbitrationPeerHosts) st).trace =
            st.trace ++ probeEvents (strings.Split st.conf.ArbitrationPeerHosts) w.peer := by
          rw [hp]
        cases hsb : (probePhase w (strings.Split st.conf.ArbitrationPeerHosts) st).splitBrain with
        | false =>
          simp only [Bool.false_eq_true, if_false]
          exact ⟨_, htr, Or.inl (probeEvents_filter_isSetActiveStatus _ _)⟩
        | true =>
          simp only [if_true]
          obtain ⟨l, hl, hs⟩ := escalationPhase_calls w st.splitBrain
            (probePhase w (strings.Split st.conf.ArbitrationPeerHosts) st)
          refine ⟨probeEvents (strings.Split st.conf.ArbitrationPeerHosts) w.peer ++ l, ?_,
            StatusCalls_append _ _ _ (probeEvents_filter_isSetActiveStatus _ _) hs⟩
          rw [hl, htr, List.append_assoc]
  obtain ⟨l, hl, hs⟩ := key
  rw [callsOf_eq w st l hl]
  exact hs

/-- C22. In every tick of `fHeartbeat`, `SetActiveStatus` is called at most once,
hence on at most one cluster, and whenever it is called with the role `x` the
tick ends with the global `runStatus` equal to `x`: the global role is the role
just given to the processed cluster. -/
theorem fHeartbeat_one_status_call (w : World) (st : State) :
    ((callsOf w st).filter Event.isSetActiveStatus).length ≤ 1 ∧
    ∀ cluster x, Event.SetActiveStatus cluster x ∈ callsOf w st →
      (fHeartbeat w st).runStatus = x ∧
      (callsOf w st).filter Event.isSetActiveStatus = [Event.SetActiveStatus cluster x] := by
  have hs := fHeartbeat_calls w st
  refine ⟨?_, ?_⟩
  · rcases hs with h0 | ⟨c, h1⟩
    · rw [h0]
      exact Nat.zero_le _
    · rw [h1]
      exact Nat.le_refl _
  · intro cluster x hmem
    have hf : Event.SetActiveStatus cluster x ∈
        (callsOf w st).filter Event.isSetActiveStatus :=
      List.mem_filter.mpr ⟨hmem, rfl⟩
    rcases hs with h0 | ⟨c, h1⟩
    · rw [h0] at hf
      simp at hf
    · rw [h1] at hf
      simp only [List.mem_singleton, Event.SetActiveStatus.injEq] at hf
      obtain ⟨hc, hx⟩ := hf
      exact ⟨hx.symm, by rw [h1, hc, hx]⟩

theorem fHeartbeat_one_status_call_witness :
    (fHeartbeat (exampleWorld true (.parsed ⟨"winner", "db1:3306"⟩))
      exampleStateTwoClusters).runStatus = "A" ∧
    (callsOf (exampleWorld true (.parsed ⟨"winner", "db1:3306"⟩))
      exampleStateTwoClusters).filter Event.isSetActiveStatus =
      [Event.SetActiveStatus "c1" "A"] :=
  (fHeartbeat_one_status_call (exampleWorld true (.parsed ⟨"winner", "db1:3306"⟩))
    exampleStateTwoClusters).2 "c1" "A" (by decide)


/-! ## A witness request that cannot be built -/

/-- C6, the failing path. In an escalating tick with a managed cluster, when
`http.NewRequest` returns no request for the witness's `/heartbeat` URL (its
error is dropped at line 560, while the peer loop checks it at lines 503-510),
the tick panics at `req.Header.Set` before any request is sent: it makes no
call but the peer probes and leaves `runStatus` as it was, so a tick that
starts Active ends Active without a "winner" verdict, and not Standby. -/
theorem fHeartbeat_unbuilt_request_panics (w : World) (st : State) (cl : Cluster)
    (rest : List Cluster) (h : Escalates w st)
    (hcl : w.rangeReport st.clusters = cl :: rest)
    (hnr : w.newRequest (heartbeatURL st) = false) :
    (fHeartbeat w st).panicked = true ∧
    (fHeartbeat w st).runStatus = st.runStatus ∧
    callsOf w st = probeEvents (strings.Split st.conf.ArbitrationPeerHosts) w.peer ∧
    (∀ e ∈ callsOf w st, ∃ url, e = Event.httpGet url) := by
  have hnr2 : w.newRequest ("http://" ++ st.conf.ArbitrationSasHosts ++ "/heartbeat") = false :=
    hnr
  have hfin : fHeartbeat w st =
      { st with
        splitBrain := true
        trace := st.trace ++ probeEvents (strings.Split st.conf.ArbitrationPeerHosts) w.peer
        panicked := true } := by
    rw [fHeartbeat_of_escalates w st h]
    simp [escalationPhase, hcl, reportLoop, hnr2]
  have hcalls : callsOf w st =
      probeEvents (strings.Split st.conf.ArbitrationPeerHosts) w.peer := by
    apply callsOf_eq
    rw [hfin]
  refine ⟨by rw [hfin], by rw [hfin], hcalls, ?_⟩
  rw [hcalls]
  exact probeEvents_all_get _ _

theorem fHeartbeat_unbuilt_request_panics_witness :
    Escalates exampleWorldBadWitness exampleBadWitnessState ∧
    exampleBadWitnessState.clusters ≠ [] ∧
    exampleBadWitnessState.runStatus = "A" ∧
    (fHeartbeat exampleWorldBadWitness exampleBadWitnessState).panicked = true ∧
    (fHeartbeat exampleWorldBadWitness exampleBadWitnessState).runStatus = "A" ∧
    callsOf exampleWorldBadWitness exampleBadWitnessState =
      [Event.httpGet "http://10.0.0.2:10001/heartbeat"] :=
  have he : Escalates exampleWorldBadWitness exampleBadWitnessState :=
    ⟨⟨by decide, by decide⟩, by decide⟩
  have h := fHeartbeat_unbuilt_request_panics exampleWorldBadWitness exampleBadWitnessState
    exampleCluster [] he rfl (by decide)
  ⟨he, by decide, rfl, h.1, h.2.1, h.2.2.1.trans (by decide)⟩


/-! ## Requests to the witness: every escalating tick -/

/-- The requests of the escalation phase. -/
theorem escalationPhase_requests (w : World) (bck : Bool) (st : State) :
    ∃ l, (escalationPhase w bck st).trace = st.trace ++ l ∧
      l.filter (Event.isPostTo (heartbeatURL st)) =
        (if w.newRequest (heartbeatURL st) = true then
          (reportedClusters (w.rangeReport st.clusters) w.heartbeat).map
            (fun cl => Event.httpPost (heartbeatURL st) (jsonStr st cl))
         else []) ∧
      (l.filter (Event.isPostTo (arbitratorURL st)) = [] ∨
        ∃ cl rest, w.rangeArbitration st.clusters = cl :: rest ∧
          l.filter (Event.isPostTo (arbitratorURL st)) =
            [Event.httpPost (arbitratorURL st) (jsonStr st cl)]) := by
  unfold escalationPhase
  cases hr : w.rangeReport st.clusters with
  | nil =>
    obtain ⟨l, hl, hhb, harb⟩ := afterReport_requests w bck st
    refine ⟨l, by simpa [reportLoop] using hl, ?_, harb⟩
    rw [hhb]
    simp [reportedClusters]
  | cons cl rest =>
    cases hnr : w.newRequest (heartbeatURL st) with
    | false =>
      have hnr2 : w.newRequest ("http://" ++ st.conf.ArbitrationSasHosts ++ "/heartbeat")
          = false := hnr
      exact ⟨[], by simp [reportLoop, hnr2], by simp, Or.inl rfl⟩
    | true =>
      rw [reportLoop_eq w.newRequest (cl :: rest) w.heartbeat st hnr]
      cases hrep : allReported (cl :: rest) w.heartbeat with
      | false =>
        refine ⟨reportEvents st (cl :: rest) w.heartbeat, by simp, ?_, Or.inl ?_⟩
        · rw [reportEvents_filter_heartbeat]
          simp
        · exact reportEvents_filter_arbitrator st _ _
      | true =>
        obtain ⟨l, hl, hhb, harb⟩ := afterReport_requests w bck
          { st with trace := st.trace ++ reportEvents st (cl :: rest) w.heartbeat }
        refine ⟨reportEvents st (cl :: rest) w.heartbeat ++ l, ?_, ?_, ?_⟩
        · simp only [if_true]
          rw [List.append_assoc] at *
          exact hl
        · rw [List.filter_append, reportEvents_filter_heartbeat]
          have hhb2 : l.filter (Event.isPostTo (heartbeatURL st)) = [] := hhb
          rw [hhb2]
          simp
        · rw [List.filter_append, reportEvents_filter_arbitrator]
          exact harb

/-- C11, amended. In every tick that enters the escalation phase, the verdict
request on `/arbitrator` is issued for at most one managed cluster, the first of
the arbitration loop's range, however many clusters are managed. The
registration on `/heartbeat` is issued for the clusters of the report loop's
range one after the other until one fails: for all of them when every
registration gets a response, else for those up to and including the first
whose registration fails, and for no cluster after it (and for none at all when
`http.NewRequest` builds no request for the URL, the tick then panicking). -/
theorem fHeartbeat_witness_requests (w : World) (st : State) (h : Escalates w st) :
    ((callsOf w st).filter (Event.isPostTo (arbitratorURL st)) = [] ∨
      ∃ cl rest, w.rangeArbitration st.clusters = cl :: rest ∧
        (callsOf w st).filter (Event.isPostTo (arbitratorURL st)) =
          [Event.httpPost (arbitratorURL st) (jsonStr st cl)]) ∧
    ((callsOf w st).filter (Event.isPostTo (arbitratorURL st))).length ≤ 1 ∧
    (callsOf w st).filter (Event.isPostTo (heartbeatURL st)) =
      (if w.newRequest (heartbeatURL st) = true then
        (reportedClusters (w.rangeReport st.clusters) w.heartbeat).map
          (fun cl => Event.httpPost (heartbeatURL st) (jsonStr st cl))
       else []) ∧
    (allReported (w.rangeReport st.clusters) w.heartbeat = true →
      reportedClusters (w.rangeReport st.clusters) w.heartbeat = w.rangeReport st.clusters) ∧
    (allReported (w.rangeReport st.clusters) w.heartbeat = false →
      ∃ k, k < (w.rangeReport st.clusters).length ∧ w.heartbeat k = false ∧
        (∀ i, i < k → w.heartbeat i = true) ∧
        reportedClusters (w.rangeReport st.clusters) w.heartbeat =
          (w.rangeReport st.clusters).take (k + 1)) := by
  obtain ⟨l, hl, hhb, harb⟩ := escalationPhase_requests w st.splitBrain
    { st with
      splitBrain := true
      trace := st.trace ++ probeEvents (strings.Split st.conf.ArbitrationPeerHosts) w.peer }
  have hcalls : callsOf w st =
      probeEvents (strings.Split st.conf.ArbitrationPeerHosts) w.peer ++ l := by
    apply callsOf_eq
    rw [fHeartbeat_of_escalates w st h, hl, List.append_assoc]
  have harb2 : (callsOf w st).filter (Event.isPostTo (arbitratorURL st)) = [] ∨
      ∃ cl rest, w.rangeArbitration st.clusters = cl :: rest ∧
        (callsOf w st).filter (Event.isPostTo (arbitratorURL st)) =
          [Event.httpPost (arbitratorURL st) (jsonStr st cl)] := by
    rw [hcalls, List.filter_append, probeEvents_filter_isPostTo, List.nil_append]
    exact harb
  refine ⟨harb2, ?_, ?_, reportedClusters_of_allReported _ _,
    reportedClusters_of_not_allReported _ _⟩
  · rcases harb2 with h0 | ⟨cl, rest, _, h1⟩
    · rw [h0]
      exact Nat.zero_le _
    · rw [h1]
      exact Nat.le_refl _
  · rw [hcalls, List.filter_append, probeEvents_filter_isPostTo, List.nil_append]
    exact hhb

theorem fHeartbeat_witness_requests_witness :
    ((callsOf (exampleWorld true (.parsed ⟨"winner", "db1:3306"⟩))
        exampleStateTwoClusters).filter
      (Event.isPostTo (arbitratorURL exampleStateTwoClusters))).length ≤ 1 ∧
    (callsOf (exampleWorld true (.parsed ⟨"winner", "db1:3306"⟩))
        exampleStateTwoClusters).filter
      (Event.isPostTo (heartbeatURL exampleStateTwoClusters)) =
      [Event.httpPost "http://10.0.0.9:8080/heartbeat"
         (jsonStr exampleStateTwoClusters exampleCluster),
       Event.httpPost "http://10.0.0.9:8080/heartbeat"
         (jsonStr exampleStateTwoClusters exampleCluster2)] ∧
    (callsOf (exampleWorld false .doError) exampleStateTwoClusters).filter
      (Event.isPostTo (heartbeatURL exampleStateTwoClusters)) =
      [Event.httpPost "http://10.0.0.9:8080/heartbeat"
         (jsonStr exampleStateTwoClusters exampleCluster)] :=
  have h := fHeartbeat_witness_requests (exampleWorld true (.parsed ⟨"winner", "db1:3306"⟩))
    exampleStateTwoClusters ⟨⟨by decide, by decide⟩, by decide⟩
  have h2 := fHeartbeat_witness_requests (exampleWorld false .doError)
    exampleStateTwoClusters ⟨⟨by decide, by decide⟩, by decide⟩
  ⟨h.2.1, h.2.2.1.trans (by decide), h2.2.2.1.trans (by decide)⟩


end ReplicationManager
